import Mathlib

/-!
# Streaming analytics core: rolling window, z-score anomaly detector, history reads

Shallow embedding of `internal/analytics/analytics.go`.

* The definitions are generic in the arithmetic: a type `F` with the operations the
  code uses (`+`, `-`, `*`, `/`, `<`, `math.Abs`, conversion from `len`, decimal
  constants) and the library function `math.Sqrt` as a parameter `sqrt : F → F`.
  * At `F64` with `F64.sqrt` they are the program as it runs: `F64` is IEEE-754
    binary64 with every operation rounded on its own to nearest, ties to even (no
    fused multiply-add, as compiled for amd64).
  * At a linearly ordered field, in particular `ℝ` with `Real.sqrt`, they are the
    exact-arithmetic reading that the statements "over the reals" are about.
* Go `int` / `int64` values are integers; arithmetic that can overflow goes
  through `wrap64` (two's complement, 64 bit).
* A Go slice is a `List`; a run-time panic is `none`.
* The mutex, the channel and the start time are not part of the sequential state;
  the worker loop `Start` is the left fold of `processMetric` over the metrics it
  receives, in arrival order.
-/

namespace Analytics

/-- Two's-complement reduction of an integer to the signed 64-bit range. -/
def wrap64 (x : Int) : Int := (x + 2 ^ 63) % 2 ^ 64 - 2 ^ 63

/-- The integer is a value of Go's 64-bit `int`. -/
def isInt64 (x : Int) : Prop := -(2 ^ 63) ≤ x ∧ x < 2 ^ 63

instance (x : Int) : Decidable (isInt64 x) := by
  unfold isInt64; exact inferInstance

/-- `type Metric struct` (the timestamp is kept as Unix seconds). -/
structure Metric (F : Type) where
  Timestamp : Int
  Value : F
  CPU : F
  Metadata : List (String × F)

/-- The two Prometheus instruments of `metrics.MetricsService` that the analytics
core writes: the value of the counter `AnomaliesTotal` and of the gauge
`RollingAverage`. -/
structure MetricsService (F : Type) where
  AnomaliesTotal : F
  RollingAverage : F

/-- `type AnalyticsService struct`, sequential part. -/
structure AnalyticsService (F : Type) where
  windowSize : Int
  anomalyZScore : F
  metricsBuffer : List F
  allMetrics : List (Metric F)
  metricsService : MetricsService F
  totalMetrics : Int
  anomaliesCount : Int
  rollingAvg : F
  currentZScore : F
  isCurrentAnomaly : Bool

/-- `type Stats struct`. -/
structure Stats (F : Type) where
  RollingAverage : F
  CurrentZScore : F
  IsAnomaly : Bool
  TotalMetrics : Int
  AnomaliesDetected : Int

/-- The largest allocation the Go runtime accepts on 64-bit platforms (48 address
bits); `make` compares the byte size of the requested capacity with it. -/
def maxAlloc : Int := 2 ^ 48

/-- A value of Go's `float64` (IEEE-754 binary64): not-a-number, an infinity, or the
finite value `(-1)^neg * m * 2^e`. Finite values are kept canonical: `m < 2^53`,
`-1074 ≤ e ≤ 971`, and `m < 2^52` only with `e = -1074` (zero and subnormals). -/
inductive F64 where
  | nan : F64
  | inf (neg : Bool) : F64
  | fin (neg : Bool) (m : Nat) (e : Int) : F64
  deriving DecidableEq

namespace F64

/-- Search for the position of the highest set bit: `bitSearch k r n` adds to `r` every
power `2^j`, `j < k` (highest first), for which `2^(r + 2^j) ≤ n`. -/
def bitSearch : Nat → Nat → Nat → Nat
  | 0, r, _ => r
  | k + 1, r, n => if 2 ^ (r + 2 ^ k) ≤ n then bitSearch k (r + 2 ^ k) n else bitSearch k r n

/-- Floor of the binary logarithm, for `0 < n < 2^8192`. -/
def ilog2 (n : Nat) : Nat := bitSearch 13 0 n

/-- Round the positive rational `n / d * 2^x` to the nearest binary64 value, ties to
even, with the given sign; results beyond the largest finite value become infinite. -/
def roundPos (neg : Bool) (n d : Nat) (x : Int) : F64 :=
  -- exponent of the last kept bit: 53 significant bits, but not below the subnormal grid
  let l : Int := (ilog2 n : Int) - (ilog2 d : Int) + x
  let e1 : Int := l - 53
  -- scale so that the value is `num / den * 2^e`
  let scaled (e : Int) : Nat × Nat :=
    let s := x - e
    if 0 ≤ s then (n * 2 ^ s.toNat, d) else (n, d * 2 ^ (-s).toNat)
  let p1 := scaled e1
  let e2 : Int := if p1.1 ≥ 2 ^ 53 * p1.2 then e1 + 1 else e1
  let e : Int := if e2 < -1074 then -1074 else e2
  let p := scaled e
  let q := p.1 / p.2
  let r := p.1 % p.2
  let m := if 2 * r > p.2 ∨ (2 * r = p.2 ∧ q % 2 = 1) then q + 1 else q
  -- a carry out of the 53 bits moves to the next binade
  let me : Nat × Int := if m = 2 ^ 53 then (2 ^ 52, e + 1) else (m, e)
  if me.2 > 971 then inf neg else fin neg me.1 me.2

/-- Round the rational `n / d * 2^x` (`d > 0`); an exact zero keeps the given sign. -/
def round (neg : Bool) (n d : Nat) (x : Int) : F64 :=
  if n = 0 then fin neg 0 (-1074) else roundPos neg n d x

/-- Negation: flips the sign bit. -/
def neg : F64 → F64
  | nan => nan
  | inf s => inf (!s)
  | fin s m e => fin (!s) m e

/-- `math.Abs`: clears the sign bit. -/
def abs : F64 → F64
  | nan => nan
  | inf _ => inf false
  | fin _ m e => fin false m e

/-- Addition, correctly rounded. -/
def add : F64 → F64 → F64
  | nan, _ => nan
  | _, nan => nan
  | inf s, inf t => if s = t then inf s else nan
  | inf s, fin _ _ _ => inf s
  | fin _ _ _, inf t => inf t
  | fin s m e, fin t k f =>
    let g : Int := if e ≤ f then e else f
    let a : Int := (if s then -1 else 1) * ((m * 2 ^ (e - g).toNat : Nat) : Int)
    let b : Int := (if t then -1 else 1) * ((k * 2 ^ (f - g).toNat : Nat) : Int)
    let c : Int := a + b
    if c = 0 then fin (s && t) 0 (-1074)
    else round (decide (c < 0)) c.natAbs 1 g

/-- Subtraction: addition of the negated operand. -/
def sub (a b : F64) : F64 := add a (neg b)

/-- Multiplication, correctly rounded. -/
def mul : F64 → F64 → F64
  | nan, _ => nan
  | _, nan => nan
  | inf s, inf t => inf (xor s t)
  | inf s, fin t k _ => if k = 0 then nan else inf (xor s t)
  | fin s m _, inf t => if m = 0 then nan else inf (xor s t)
  | fin s m e, fin t k f => round (xor s t) (m * k) 1 (e + f)

/-- Division, correctly rounded. -/
def div : F64 → F64 → F64
  | nan, _ => nan
  | _, nan => nan
  | inf _, inf _ => nan
  | inf s, fin t _ _ => inf (xor s t)
  | fin s _ _, inf t => fin (xor s t) 0 (-1074)
  | fin s m e, fin t k f =>
    if k = 0 then (if m = 0 then nan else inf (xor s t))
    else round (xor s t) m k (e - f)

/-- Digit-by-digit integer square root: `isqrtAux k r n` tries the bits `2^j`, `j < k`,
highest first. -/
def isqrtAux : Nat → Nat → Nat → Nat
  | 0, r, _ => r
  | k + 1, r, n => if (r + 2 ^ k) * (r + 2 ^ k) ≤ n then isqrtAux k (r + 2 ^ k) n
                   else isqrtAux k r n

/-- `math.Sqrt`, correctly rounded. -/
def sqrt : F64 → F64
  | nan => nan
  | inf s => if s then nan else inf false
  | fin s m e =>
    if m = 0 then fin s 0 (-1074)
    else if s then nan
    else
      -- value = w * 2^(2 h) with `w` scaled up by 2^128 for the integer root
      let odd : Bool := decide (e % 2 ≠ 0)
      let w : Nat := (if odd then 2 * m else m) * 2 ^ 128
      let h : Int := (if odd then e - 1 else e) / 2
      let r := isqrtAux 128 0 w
      let sticky : Nat := if r * r = w then 0 else 1
      round false (2 * r + sticky) 1 (h - 64 - 1)

/-- Ordered comparison `<`; false when either side is not a number. -/
def lt : F64 → F64 → Bool
  | nan, _ => false
  | _, nan => false
  | inf s, inf t => s && !t
  | inf s, fin _ _ _ => s
  | fin _ _ _, inf t => !t
  | fin s m e, fin t k f =>
    let g : Int := if e ≤ f then e else f
    let a : Int := (if s then -1 else 1) * ((m * 2 ^ (e - g).toNat : Nat) : Int)
    let b : Int := (if t then -1 else 1) * ((k * 2 ^ (f - g).toNat : Nat) : Int)
    decide (a < b)

/-- Conversion `float64(n)` of a non-negative integer. -/
def ofNat (n : Nat) : F64 := round false n 1 0

/-- A decimal constant `mantissa * 10^(∓exponent)`, rounded once. -/
def ofDecimal (mantissa : Nat) (exponentSign : Bool) (exponent : Nat) : F64 :=
  if exponentSign then round false mantissa (10 ^ exponent) 0
  else round false (mantissa * 10 ^ exponent) 1 0

instance : Add F64 := ⟨add⟩
instance : Sub F64 := ⟨sub⟩
instance : Mul F64 := ⟨mul⟩
instance : Div F64 := ⟨div⟩
instance : Zero F64 := ⟨fin false 0 (-1074)⟩
instance : One F64 := ⟨ofNat 1⟩
instance : NatCast F64 := ⟨ofNat⟩
instance : OfScientific F64 := ⟨ofDecimal⟩
instance : LT F64 := ⟨fun a b => lt a b = true⟩
instance : DecidableRel (fun a b : F64 => a < b) :=
  fun a b => inferInstanceAs (Decidable (lt a b = true))

end F64

/-- `math.Abs` on the arithmetic type. -/
class FloatAbs (F : Type) where
  /-- The absolute value. -/
  fabs : F → F

instance : FloatAbs F64 := ⟨F64.abs⟩

instance (F : Type) [LinearOrderedField F] : FloatAbs F := ⟨fun x => |x|⟩

section Defs

variable {F : Type} [Zero F] [One F] [Add F] [Sub F] [Mul F] [Div F] [NatCast F]
  [OfScientific F] [LT F] [DecidableRel (fun a b : F => a < b)] [FloatAbs F]

/-- `NewAnalyticsService`: every field not listed in the composite literal has its
zero value. `make([]float64, 0, windowSize)` panics (`makeslice: cap out of range`)
for a negative capacity and for one whose `8 * windowSize` bytes exceed `maxAlloc`. -/
def NewAnalyticsService (windowSize : Int) (anomalyZScore : F)
    (metricsService : MetricsService F) : Option (AnalyticsService F) :=
  if windowSize < 0 ∨ 8 * windowSize > maxAlloc then none
  else some
    { windowSize := windowSize
      anomalyZScore := anomalyZScore
      metricsBuffer := []
      allMetrics := []
      metricsService := metricsService
      totalMetrics := 0
      anomaliesCount := 0
      rollingAvg := 0
      currentZScore := 0
      isCurrentAnomaly := false }

/-- `calculateRollingAverage`: the accumulation loop is a left fold from `0`. -/
def calculateRollingAverage (a : AnalyticsService F) : F :=
  if a.metricsBuffer.length = 0 then 0
  else
    let sum := a.metricsBuffer.foldl (fun sum value => sum + value) 0
    sum / (a.metricsBuffer.length : F)

/-- `calculateZScore`: reads the mean from the field `rollingAvg`. -/
def calculateZScore (sqrt : F → F) (a : AnalyticsService F) (value : F) : F :=
  if a.metricsBuffer.length < 2 then 0
  else
    let mean := a.rollingAvg
    let varianceSum :=
      a.metricsBuffer.foldl (fun varianceSum v => varianceSum + (v - mean) * (v - mean)) 0
    let stdDev := sqrt (varianceSum / (a.metricsBuffer.length : F))
    if stdDev < 0.0001 then 0
    else (value - mean) / stdDev

/-- `processMetric`, statement by statement. -/
def processMetric (sqrt : F → F) (a : AnalyticsService F) (metric : Metric F) :
    AnalyticsService F :=
  let a1 : AnalyticsService F :=
    { a with
      metricsBuffer := a.metricsBuffer ++ [metric.Value]
      allMetrics := a.allMetrics ++ [metric]
      totalMetrics := wrap64 (a.totalMetrics + 1) }
  let a2 : AnalyticsService F :=
    if (a1.metricsBuffer.length : Int) > a1.windowSize then
      { a1 with metricsBuffer := a1.metricsBuffer.drop 1 }
    else a1
  let a3 : AnalyticsService F := { a2 with rollingAvg := calculateRollingAverage a2 }
  let a4 : AnalyticsService F :=
    { a3 with metricsService := { a3.metricsService with RollingAverage := a3.rollingAvg } }
  if a4.metricsBuffer.length ≥ 10 then
    let a5 : AnalyticsService F :=
      { a4 with currentZScore := calculateZScore sqrt a4 metric.Value }
    let a6 : AnalyticsService F :=
      { a5 with isCurrentAnomaly := decide (FloatAbs.fabs a5.currentZScore > a5.anomalyZScore) }
    if a6.isCurrentAnomaly then
      { a6 with
        anomaliesCount := wrap64 (a6.anomaliesCount + 1)
        metricsService :=
          { a6.metricsService with AnomaliesTotal := a6.metricsService.AnomaliesTotal + 1 } }
    else a6
  else a4

/-- `Start`: the worker loop, applied to the metrics it receives from the channel
before cancellation, in arrival order. -/
def Start (sqrt : F → F) (a : AnalyticsService F) (received : List (Metric F)) :
    AnalyticsService F :=
  received.foldl (processMetric sqrt) a

/-- `GetStats`. -/
def GetStats (a : AnalyticsService F) : Stats F :=
  { RollingAverage := a.rollingAvg
    CurrentZScore := a.currentZScore
    IsAnomaly := a.isCurrentAnomaly
    TotalMetrics := a.totalMetrics
    AnomaliesDetected := a.anomaliesCount }

/-- `GetRecentMetrics`: returns the copied slice together with the service state
after the call; `none` is the panic of the slice expression `a.allMetrics[start:]`
when `start` exceeds the length. -/
def GetRecentMetrics (a : AnalyticsService F) (n : Int) :
    Option (List (Metric F) × AnalyticsService F) :=
  if a.allMetrics.length = 0 then some ([], a)
  else
    let start := wrap64 ((a.allMetrics.length : Int) - n)
    let start := if start < 0 then 0 else start
    if start > (a.allMetrics.length : Int) then none
    else some (a.allMetrics.drop start.toNat, a)

/-- The window after appending `v` to `buf` under capacity `W`: the two buffer
statements of `processMetric` (append, then drop the oldest if over capacity). -/
def pushWindow (W : Int) (buf : List F) (v : F) : List F :=
  if ((buf ++ [v]).length : Int) > W then (buf ++ [v]).drop 1 else buf ++ [v]

/-- A metric carrying the value `v` (timestamp `0`, CPU `0`, no metadata). -/
def sample (v : F) : Metric F :=
  { Timestamp := 0, Value := v, CPU := 0, Metadata := [] }

/-- The contents of both Prometheus instruments at start-up. -/
def freshInstruments : MetricsService F :=
  { AnomaliesTotal := 0, RollingAverage := 0 }

/-- Scenario A of the specification: ten samples of value 10, then one of value 100. -/
def scenarioAInputs : List (Metric F) :=
  List.replicate 10 (sample 10) ++ [sample 100]

/-- Scenario B of the specification: five samples. -/
def scenarioBInputs : List (Metric F) :=
  [sample 3, sample 400, sample 1, sample 7, sample 2]

/-- The loop invariant of the detector: the window fits its capacity, and as long as
it holds fewer than ten values nothing has ever been scored or flagged. -/
def QuietInv (a : AnalyticsService F) : Prop :=
  (a.metricsBuffer.length : Int) ≤ a.windowSize ∧
  (a.metricsBuffer.length < 10 →
    a.currentZScore = 0 ∧ a.isCurrentAnomaly = false ∧ a.anomaliesCount = 0)

/-- The loop invariant of the counters: `totalMetrics` counts the history and
`anomaliesCount` lies between `0` and `totalMetrics`. -/
def CountInv (a : AnalyticsService F) : Prop :=
  a.totalMetrics = (a.allMetrics.length : Int) ∧
  0 ≤ a.anomaliesCount ∧ a.anomaliesCount ≤ a.totalMetrics

end Defs

section SpecDefs

variable {F : Type} [LinearOrderedField F]

/-- Specification side: the mean of a window, `sum(w) / len(w)`, or `0` if `w` is
empty. -/
def specMean (w : List F) : F :=
  if w = [] then 0 else w.sum / (w.length : F)

/-- Specification side: the population standard deviation of a window,
`sqrt(Σ (v - mean)² / len(w))`. -/
def specStdDev (sqrt : F → F) (w : List F) : F :=
  sqrt ((w.map (fun v => (v - specMean w) ^ 2)).sum / (w.length : F))

/-- Specification side: the z-score of `newValue` against a window: `0` if the
standard deviation is below `1e-4`, otherwise `(newValue - mean) / stdDev`. -/
def specZScore (sqrt : F → F) (w : List F) (newValue : F) : F :=
  if specStdDev sqrt w < 1e-4 then 0 else (newValue - specMean w) / specStdDev sqrt w

end SpecDefs

end Analytics

namespace Analytics

set_option linter.unusedSectionVars false

section Generic

variable {F : Type} [Zero F] [One F] [Add F] [Sub F] [Mul F] [Div F] [NatCast F]
  [OfScientific F] [LT F] [DecidableRel (fun a b : F => a < b)] [FloatAbs F]

theorem NewAnalyticsService_some (W : Int) (t : F) (inst : MetricsService F)
    (a0 : AnalyticsService F) (h : NewAnalyticsService W t inst = some a0) :
    0 ≤ W ∧ a0.windowSize = W ∧ a0.anomalyZScore = t ∧ a0.metricsBuffer = [] ∧
      a0.allMetrics = [] ∧ a0.totalMetrics = 0 ∧ a0.anomaliesCount = 0 ∧
      a0.rollingAvg = 0 ∧ a0.currentZScore = 0 ∧ a0.isCurrentAnomaly = false := by
  unfold NewAnalyticsService at h
  split_ifs at h with hW
  simp only [Option.some.injEq] at h
  subst h
  exact ⟨by omega, rfl, rfl, rfl, rfl, rfl, rfl, rfl, rfl, rfl⟩

theorem processMetric_windowSize (sqrt : F → F) (a : AnalyticsService F) (m : Metric F) :
    (processMetric sqrt a m).windowSize = a.windowSize := by
  unfold processMetric
  simp only []
  split_ifs <;> rfl

theorem processMetric_anomalyZScore (sqrt : F → F) (a : AnalyticsService F) (m : Metric F) :
    (processMetric sqrt a m).anomalyZScore = a.anomalyZScore := by
  unfold processMetric
  simp only []
  split_ifs <;> rfl

theorem processMetric_allMetrics (sqrt : F → F) (a : AnalyticsService F) (m : Metric F) :
    (processMetric sqrt a m).allMetrics = a.allMetrics ++ [m] := by
  unfold processMetric
  simp only []
  split_ifs <;> rfl

theorem processMetric_totalMetrics (sqrt : F → F) (a : AnalyticsService F) (m : Metric F) :
    (processMetric sqrt a m).totalMetrics = wrap64 (a.totalMetrics + 1) := by
  unfold processMetric
  simp only []
  split_ifs <;> rfl

theorem processMetric_metricsBuffer (sqrt : F → F) (a : AnalyticsService F) (m : Metric F) :
    (processMetric sqrt a m).metricsBuffer = pushWindow a.windowSize a.metricsBuffer m.Value := by
  unfold processMetric pushWindow
  simp only []
  split_ifs <;> rfl

theorem Start_nil (sqrt : F → F) (a : AnalyticsService F) : Start sqrt a [] = a := rfl

theorem Start_cons (sqrt : F → F) (a : AnalyticsService F) (m : Metric F)
    (ms : List (Metric F)) :
    Start sqrt a (m :: ms) = Start sqrt (processMetric sqrt a m) ms := rfl

theorem Start_append_singleton (sqrt : F → F) (a : AnalyticsService F) (ms : List (Metric F))
    (m : Metric F) :
    Start sqrt a (ms ++ [m]) = processMetric sqrt (Start sqrt a ms) m := by
  simp [Start, List.foldl_append]

/-- The window is the value projection of the last `W` history entries: one step. -/
theorem pushWindow_lastValues (W : Int) (hW : 0 ≤ W) (all : List (Metric F)) (m : Metric F) :
    pushWindow W ((all.drop (all.length - W.toNat)).map Metric.Value) m.Value
      = ((all ++ [m]).drop ((all ++ [m]).length - W.toNat)).map Metric.Value := by
  obtain ⟨w, rfl⟩ := Int.eq_ofNat_of_zero_le hW
  simp only [Int.toNat_ofNat]
  unfold pushWindow
  simp only [List.length_append, List.length_map, List.length_drop, List.length_singleton]
  split_ifs with h
  · have hk : all.length - w ≤ all.length := Nat.sub_le _ _
    have e : all.length + 1 - w = (all.length - w) + 1 := by omega
    rw [e, ← List.drop_drop, List.drop_append_of_le_length hk]
    simp [List.drop_one]
  · have e1 : all.length - w = 0 := by omega
    have e2 : all.length + 1 - w = 0 := by omega
    simp [e1, e2]

/-- The invariant of the worker loop that links window and history. -/
theorem Start_window (sqrt : F → F) (ms : List (Metric F)) :
    ∀ a : AnalyticsService F, 0 ≤ a.windowSize →
      a.metricsBuffer
        = (a.allMetrics.drop (a.allMetrics.length - a.windowSize.toNat)).map Metric.Value →
      (Start sqrt a ms).windowSize = a.windowSize ∧
      (Start sqrt a ms).anomalyZScore = a.anomalyZScore ∧
      (Start sqrt a ms).allMetrics = a.allMetrics ++ ms ∧
      (Start sqrt a ms).metricsBuffer
        = ((Start sqrt a ms).allMetrics.drop
            ((Start sqrt a ms).allMetrics.length - a.windowSize.toNat)).map Metric.Value := by
  induction ms with
  | nil => intro a _ hinv; simpa [Start_nil] using hinv
  | cons m ms ih =>
    intro a hW hinv
    have hW1 : 0 ≤ (processMetric sqrt a m).windowSize := by
      rw [processMetric_windowSize]; exact hW
    have hinv1 : (processMetric sqrt a m).metricsBuffer
        = ((processMetric sqrt a m).allMetrics.drop
            ((processMetric sqrt a m).allMetrics.length
              - (processMetric sqrt a m).windowSize.toNat)).map Metric.Value := by
      rw [processMetric_metricsBuffer, processMetric_allMetrics, processMetric_windowSize,
        hinv, pushWindow_lastValues _ hW]
    obtain ⟨h1, h2, h3, h4⟩ := ih (processMetric sqrt a m) hW1 hinv1
    rw [processMetric_windowSize] at h1 h4
    rw [processMetric_anomalyZScore] at h2
    rw [processMetric_allMetrics] at h3
    refine ⟨by rw [Start_cons, h1], by rw [Start_cons, h2], ?_, by rw [Start_cons]; exact h4⟩
    rw [Start_cons, h3]; simp

theorem Start_allMetrics (sqrt : F → F) (ms : List (Metric F)) :
    ∀ a : AnalyticsService F, (Start sqrt a ms).allMetrics = a.allMetrics ++ ms := by
  induction ms with
  | nil => intro a; simp [Start_nil]
  | cons m ms ih => intro a; rw [Start_cons, ih, processMetric_allMetrics]; simp

theorem Start_params (sqrt : F → F) (ms : List (Metric F)) :
    ∀ a : AnalyticsService F, (Start sqrt a ms).windowSize = a.windowSize ∧
      (Start sqrt a ms).anomalyZScore = a.anomalyZScore := by
  induction ms with
  | nil => intro a; exact ⟨rfl, rfl⟩
  | cons m ms ih =>
    intro a
    rw [Start_cons]
    obtain ⟨h1, h2⟩ := ih (processMetric sqrt a m)
    rw [processMetric_windowSize] at h1
    rw [processMetric_anomalyZScore] at h2
    exact ⟨h1, h2⟩

end Generic

section Structural

variable {F : Type} [LinearOrderedField F]

theorem NewAnalyticsService_succeeds (W : Int) (hW : 0 ≤ W) (hcap : 8 * W ≤ maxAlloc) (t : F)
    (inst : MetricsService F) :
    ∃ a0 : AnalyticsService F, NewAnalyticsService W t inst = some a0 := by
  unfold NewAnalyticsService
  have : ¬ (W < 0 ∨ 8 * W > maxAlloc) := by omega
  simp only [this, if_false]
  exact ⟨_, rfl⟩

theorem fabs_eq_abs (x : F) : FloatAbs.fabs x = |x| := rfl

theorem foldl_add_map (f : F → F) (l : List F) (init : F) :
    l.foldl (fun acc v => acc + f v) init = init + (l.map f).sum := by
  induction l generalizing init with
  | nil => simp
  | cons x xs ih => simp [ih, add_assoc]

theorem calculateRollingAverage_eq (a : AnalyticsService F) :
    calculateRollingAverage a = specMean a.metricsBuffer := by
  unfold calculateRollingAverage specMean
  have h : a.metricsBuffer.foldl (fun acc v => acc + v) 0 = a.metricsBuffer.sum := by
    simpa using foldl_add_map (fun v => v) a.metricsBuffer 0
  by_cases hb : a.metricsBuffer = []
  · simp [hb]
  · have hl : a.metricsBuffer.length ≠ 0 := by simpa using hb
    simp only [hl, hb, if_false]
    rw [h]

theorem calculateZScore_eq (sqrt : F → F) (a : AnalyticsService F) (value : F)
    (hlen : 2 ≤ a.metricsBuffer.length) (hmean : a.rollingAvg = specMean a.metricsBuffer) :
    calculateZScore sqrt a value = specZScore sqrt a.metricsBuffer value := by
  unfold calculateZScore specZScore specStdDev
  have hl : ¬ a.metricsBuffer.length < 2 := by omega
  have h := foldl_add_map (fun v => (v - specMean a.metricsBuffer) ^ 2) a.metricsBuffer 0
  simp only [zero_add] at h
  simp only [hl, if_false, hmean, ← pow_two, h]

theorem processMetric_rollingAvg (sqrt : F → F) (a : AnalyticsService F) (m : Metric F) :
    (processMetric sqrt a m).rollingAvg
      = specMean (pushWindow a.windowSize a.metricsBuffer m.Value) := by
  rw [← processMetric_metricsBuffer sqrt a m]
  unfold processMetric
  simp only []
  split_ifs <;> simp only [calculateRollingAverage_eq]

theorem processMetric_of_short (sqrt : F → F) (a : AnalyticsService F) (m : Metric F)
    (h : (pushWindow a.windowSize a.metricsBuffer m.Value).length < 10) :
    (processMetric sqrt a m).currentZScore = a.currentZScore ∧
    (processMetric sqrt a m).isCurrentAnomaly = a.isCurrentAnomaly ∧
    (processMetric sqrt a m).anomaliesCount = a.anomaliesCount := by
  unfold pushWindow at h
  unfold processMetric
  simp only []
  split_ifs at h ⊢ <;> first | (exact ⟨rfl, rfl, rfl⟩) | (exfalso; simp at *; omega)

theorem processMetric_of_full (sqrt : F → F) (a : AnalyticsService F) (m : Metric F)
    (h : 10 ≤ (pushWindow a.windowSize a.metricsBuffer m.Value).length) :
    (processMetric sqrt a m).currentZScore
      = specZScore sqrt (pushWindow a.windowSize a.metricsBuffer m.Value) m.Value ∧
    (processMetric sqrt a m).isCurrentAnomaly
      = decide (|(processMetric sqrt a m).currentZScore| > a.anomalyZScore) ∧
    (processMetric sqrt a m).anomaliesCount
      = if (processMetric sqrt a m).isCurrentAnomaly then wrap64 (a.anomaliesCount + 1)
        else a.anomaliesCount := by
  unfold pushWindow at h
  unfold processMetric pushWindow
  simp only [fabs_eq_abs]
  split_ifs at h ⊢ <;>
    first
    | (exfalso; simp at *; omega)
    | (refine ⟨?_, by simp_all, by simp_all⟩
       rw [calculateZScore_eq]
       · simp only []; omega
       · simp only [calculateRollingAverage_eq])

theorem GetStats_RollingAverage (a : AnalyticsService F) :
    (GetStats a).RollingAverage = a.rollingAvg := rfl

theorem GetStats_CurrentZScore (a : AnalyticsService F) :
    (GetStats a).CurrentZScore = a.currentZScore := rfl

theorem GetStats_IsAnomaly (a : AnalyticsService F) :
    (GetStats a).IsAnomaly = a.isCurrentAnomaly := rfl

theorem GetStats_AnomaliesDetected (a : AnalyticsService F) :
    (GetStats a).AnomaliesDetected = a.anomaliesCount := rfl

theorem wrap64_of_isInt64 (x : Int) (h : isInt64 x) : wrap64 x = x := by
  unfold isInt64 at h
  unfold wrap64
  omega

theorem pushWindow_length (W : Int) (buf : List F) (v : F) :
    (pushWindow W buf v).length
      = if ((buf.length : Int) + 1 > W) then buf.length else buf.length + 1 := by
  unfold pushWindow
  simp only [List.length_append, List.length_singleton, Nat.cast_add, Nat.cast_one]
  split_ifs <;> simp

theorem QuietInv_fresh (W : Int) (t : F) (inst : MetricsService F) (a0 : AnalyticsService F)
    (h : NewAnalyticsService W t inst = some a0) : QuietInv a0 := by
  obtain ⟨hW, hw, -, hbuf, -, -, hc, -, hz, hf⟩ := NewAnalyticsService_some W t inst a0 h
  refine ⟨?_, fun _ => ⟨hz, hf, hc⟩⟩
  rw [hbuf, hw]; simpa using hW

theorem QuietInv_step (sqrt : F → F) (a : AnalyticsService F) (m : Metric F)
    (h : QuietInv a) : QuietInv (processMetric sqrt a m) := by
  obtain ⟨hle, hq⟩ := h
  have hlen := pushWindow_length a.windowSize a.metricsBuffer m.Value
  refine ⟨?_, ?_⟩
  · rw [processMetric_metricsBuffer, processMetric_windowSize, hlen]
    split_ifs <;> push_cast <;> omega
  · intro hshort
    rw [processMetric_metricsBuffer] at hshort
    obtain ⟨hz, hf, hc⟩ := processMetric_of_short sqrt a m hshort
    rw [hz, hf, hc]
    apply hq
    rw [hlen] at hshort
    split_ifs at hshort <;> omega

theorem QuietInv_Start (sqrt : F → F) (ms : List (Metric F)) :
    ∀ a : AnalyticsService F, QuietInv a → QuietInv (Start sqrt a ms) := by
  induction ms with
  | nil => intro a h; exact h
  | cons m ms ih => intro a h; rw [Start_cons]; exact ih _ (QuietInv_step sqrt a m h)

theorem Start_fresh_length (sqrt : F → F) (W : Int) (t : F) (inst : MetricsService F)
    (a0 : AnalyticsService F) (h : NewAnalyticsService W t inst = some a0)
    (ms : List (Metric F)) :
    (Start sqrt a0 ms).metricsBuffer.length = min ms.length W.toNat := by
  obtain ⟨hW, hw, -, hbuf, hall, -⟩ := NewAnalyticsService_some W t inst a0 h
  obtain ⟨-, -, h3, h4⟩ :=
    Start_window sqrt ms a0 (by rw [hw]; exact hW) (by simp [hbuf, hall])
  rw [hall, List.nil_append] at h3
  rw [h4, h3]
  simp only [List.length_map, List.length_drop, hw]
  omega

theorem processMetric_anomaliesCount (sqrt : F → F) (a : AnalyticsService F) (m : Metric F)
    (hq : QuietInv a) :
    (processMetric sqrt a m).anomaliesCount
      = (if (processMetric sqrt a m).isCurrentAnomaly then wrap64 (a.anomaliesCount + 1)
         else a.anomaliesCount) ∧
    ((processMetric sqrt a m).isCurrentAnomaly = true ↔
      10 ≤ (processMetric sqrt a m).metricsBuffer.length ∧
        |(processMetric sqrt a m).currentZScore| > a.anomalyZScore) := by
  by_cases hlen : 10 ≤ (pushWindow a.windowSize a.metricsBuffer m.Value).length
  · obtain ⟨-, hf, hc⟩ := processMetric_of_full sqrt a m hlen
    refine ⟨hc, ?_⟩
    rw [processMetric_metricsBuffer]
    constructor
    · intro h
      rw [hf] at h
      exact ⟨hlen, by simpa using h⟩
    · rintro ⟨-, h⟩
      rw [hf]
      simpa using h
  · have hshort : (pushWindow a.windowSize a.metricsBuffer m.Value).length < 10 := by omega
    have hq1 := (QuietInv_step sqrt a m hq).2
    rw [processMetric_metricsBuffer] at hq1
    obtain ⟨-, hf1, -⟩ := hq1 hshort
    obtain ⟨-, -, hc⟩ := processMetric_of_short sqrt a m hshort
    refine ⟨by rw [hf1, hc]; simp, ?_⟩
    rw [processMetric_metricsBuffer, hf1]
    constructor
    · intro h; exact absurd h (by simp)
    · rintro ⟨h, -⟩; omega

theorem CountInv_fresh (W : Int) (t : F) (inst : MetricsService F) (a0 : AnalyticsService F)
    (h : NewAnalyticsService W t inst = some a0) : CountInv a0 := by
  obtain ⟨-, -, -, -, hall, ht, hc, -⟩ := NewAnalyticsService_some W t inst a0 h
  unfold CountInv
  rw [hall, ht, hc]
  simp

theorem CountInv_step (sqrt : F → F) (a : AnalyticsService F) (m : Metric F)
    (hq : QuietInv a) (hc : CountInv a) (hn : (a.allMetrics.length : Int) + 1 < 2 ^ 63) :
    CountInv (processMetric sqrt a m) ∧
      (processMetric sqrt a m).totalMetrics = a.totalMetrics + 1 ∧
      (processMetric sqrt a m).anomaliesCount
        = a.anomaliesCount + (if (processMetric sqrt a m).isCurrentAnomaly then 1 else 0) := by
  obtain ⟨ht, h0, hle⟩ := hc
  have htot : (processMetric sqrt a m).totalMetrics = a.totalMetrics + 1 := by
    rw [processMetric_totalMetrics]
    apply wrap64_of_isInt64
    unfold isInt64
    omega
  have hcnt : (processMetric sqrt a m).anomaliesCount
      = a.anomaliesCount + (if (processMetric sqrt a m).isCurrentAnomaly then 1 else 0) := by
    rw [(processMetric_anomaliesCount sqrt a m hq).1]
    split_ifs
    · apply wrap64_of_isInt64
      unfold isInt64
      omega
    · simp
  refine ⟨⟨?_, ?_, ?_⟩, htot, hcnt⟩
  · rw [htot, processMetric_allMetrics, ht]; simp
  · rw [hcnt]; split_ifs <;> omega
  · rw [hcnt, htot]; split_ifs <;> omega

theorem CountInv_Start (sqrt : F → F) (ms : List (Metric F)) :
    ∀ a : AnalyticsService F, QuietInv a → CountInv a →
      ((a.allMetrics.length : Int) + (ms.length : Int) < 2 ^ 63) →
      CountInv (Start sqrt a ms) := by
  induction ms with
  | nil => intro a _ h _; exact h
  | cons m ms ih =>
    intro a hq hc hn
    rw [Start_cons]
    simp only [List.length_cons, Nat.cast_add, Nat.cast_one] at hn
    apply ih _ (QuietInv_step sqrt a m hq) (CountInv_step sqrt a m hq hc (by omega)).1
    rw [processMetric_allMetrics]
    simp only [List.length_append, List.length_singleton, Nat.cast_add, Nat.cast_one]
    omega

theorem Start_fresh_window (sqrt : F → F) (W : Int) (t : F) (inst : MetricsService F)
    (a0 : AnalyticsService F) (h : NewAnalyticsService W t inst = some a0)
    (ms : List (Metric F)) :
    (Start sqrt a0 ms).metricsBuffer = (ms.drop (ms.length - W.toNat)).map Metric.Value := by
  obtain ⟨hW, hw, -, hbuf, hall, -⟩ := NewAnalyticsService_some W t inst a0 h
  obtain ⟨-, -, h3, h4⟩ :=
    Start_window sqrt ms a0 (by rw [hw]; exact hW) (by simp [hbuf, hall])
  rw [hall, List.nil_append] at h3
  rw [h4, h3, hw]

theorem Start_fresh_params (sqrt : F → F) (W : Int) (t : F) (inst : MetricsService F)
    (a0 : AnalyticsService F) (h : NewAnalyticsService W t inst = some a0)
    (ms : List (Metric F)) :
    (Start sqrt a0 ms).windowSize = W ∧ (Start sqrt a0 ms).anomalyZScore = t := by
  obtain ⟨-, hw, ht, -⟩ := NewAnalyticsService_some W t inst a0 h
  obtain ⟨h1, h2⟩ := Start_params sqrt ms a0
  exact ⟨h1.trans hw, h2.trans ht⟩

/-- After the last processed sample the stored average is the mean of the stored
window. -/
theorem Start_snoc_rollingAvg (sqrt : F → F) (a : AnalyticsService F) (ms : List (Metric F))
    (m : Metric F) :
    (Start sqrt a (ms ++ [m])).rollingAvg = specMean (Start sqrt a (ms ++ [m])).metricsBuffer := by
  rw [Start_append_singleton, processMetric_rollingAvg, processMetric_metricsBuffer]

/-- After the last processed sample, a window of at least ten values determines the
stored score and flag. -/
theorem Start_snoc_full (sqrt : F → F) (a : AnalyticsService F) (ms : List (Metric F))
    (m : Metric F) (h : 10 ≤ (Start sqrt a (ms ++ [m])).metricsBuffer.length) :
    (Start sqrt a (ms ++ [m])).currentZScore
        = specZScore sqrt (Start sqrt a (ms ++ [m])).metricsBuffer m.Value ∧
      (Start sqrt a (ms ++ [m])).isCurrentAnomaly
        = decide (|(Start sqrt a (ms ++ [m])).currentZScore| > a.anomalyZScore) ∧
      (Start sqrt a (ms ++ [m])).anomaliesCount
        = if (Start sqrt a (ms ++ [m])).isCurrentAnomaly
          then wrap64 ((Start sqrt a ms).anomaliesCount + 1)
          else (Start sqrt a ms).anomaliesCount := by
  rw [Start_append_singleton] at h ⊢
  rw [processMetric_metricsBuffer] at h
  obtain ⟨h1, h2, h3⟩ := processMetric_of_full sqrt (Start sqrt a ms) m h
  rw [(Start_params sqrt ms a).2] at h2
  rw [processMetric_metricsBuffer]
  exact ⟨h1, h2, h3⟩

end Structural

section RealArithmetic

theorem specMean_const (w : List ℝ) (c : ℝ) (hne : w ≠ []) (h : ∀ v ∈ w, v = c) :
    specMean w = c := by
  have hw : w = List.replicate w.length c := List.eq_replicate_iff.mpr ⟨rfl, h⟩
  have hlen : (w.length : ℝ) ≠ 0 := by
    have : w.length ≠ 0 := by simpa using hne
    exact_mod_cast this
  unfold specMean
  rw [if_neg hne]
  rw [hw, List.sum_replicate, List.length_replicate, nsmul_eq_mul]
  field_simp

theorem specStdDev_const (w : List ℝ) (c : ℝ) (h : ∀ v ∈ w, v = c) :
    specStdDev Real.sqrt w = 0 := by
  unfold specStdDev
  by_cases hne : w = []
  · simp [hne]
  · have hm := specMean_const w c hne h
    have hz : (w.map (fun v => (v - specMean w) ^ 2)).sum = 0 := by
      apply List.sum_eq_zero
      intro x hx
      obtain ⟨v, hv, rfl⟩ := List.mem_map.mp hx
      rw [hm, h v hv]
      simp
    rw [hz]
    simp

theorem specZScore_const (w : List ℝ) (c x : ℝ) (h : ∀ v ∈ w, v = c) :
    specZScore Real.sqrt w x = 0 := by
  unfold specZScore
  rw [specStdDev_const w c h]
  norm_num

/-- A sample that leaves a constant window is not flagged when the threshold is not
negative. -/
theorem processMetric_const_window (a : AnalyticsService ℝ) (m : Metric ℝ) (hq : QuietInv a)
    (ht : 0 ≤ a.anomalyZScore) (c : ℝ)
    (hconst : ∀ v ∈ (processMetric Real.sqrt a m).metricsBuffer, v = c) :
    (processMetric Real.sqrt a m).isCurrentAnomaly = false ∧
      (processMetric Real.sqrt a m).anomaliesCount = a.anomaliesCount := by
  by_cases hlen : 10 ≤ (pushWindow a.windowSize a.metricsBuffer m.Value).length
  · obtain ⟨h1, h2, h3⟩ := processMetric_of_full Real.sqrt a m hlen
    rw [processMetric_metricsBuffer] at hconst
    rw [specZScore_const _ c m.Value hconst] at h1
    have hf : (processMetric Real.sqrt a m).isCurrentAnomaly = false := by
      rw [h2, h1]
      simpa using ht
    exact ⟨hf, by rw [h3, hf]; simp⟩
  · have hshort : (pushWindow a.windowSize a.metricsBuffer m.Value).length < 10 := by omega
    have hq1 := (QuietInv_step Real.sqrt a m hq).2
    rw [processMetric_metricsBuffer] at hq1
    exact ⟨(hq1 hshort).2.1, (processMetric_of_short Real.sqrt a m hshort).2.2⟩

/-- A fresh service fed only samples of one value never flags anything when the
threshold is not negative. -/
theorem Start_const_inputs (W : Int) (t : ℝ) (ht : 0 ≤ t) (inst : MetricsService ℝ)
    (a0 : AnalyticsService ℝ) (h0 : NewAnalyticsService W t inst = some a0) (c : ℝ)
    (ms : List (Metric ℝ)) (hval : ∀ x ∈ ms, x.Value = c) :
    (Start Real.sqrt a0 ms).isCurrentAnomaly = false ∧
      (Start Real.sqrt a0 ms).anomaliesCount = 0 := by
  induction ms using List.reverseRecOn with
  | nil =>
    obtain ⟨-, -, -, -, -, -, hc, -, -, hf⟩ := NewAnalyticsService_some W t inst a0 h0
    exact ⟨hf, hc⟩
  | append_singleton init m ih =>
    have hinit : ∀ x ∈ init, x.Value = c := fun x hx => hval x (by simp [hx])
    obtain ⟨-, ihc⟩ := ih hinit
    have hconst : ∀ v ∈ (Start Real.sqrt a0 (init ++ [m])).metricsBuffer, v = c := by
      rw [Start_fresh_window Real.sqrt W t inst a0 h0]
      intro v hv
      obtain ⟨x, hx, rfl⟩ := List.mem_map.mp hv
      exact hval x (List.mem_of_mem_drop hx)
    rw [Start_append_singleton] at hconst ⊢
    obtain ⟨hf, hc⟩ := processMetric_const_window _ _ (QuietInv_Start Real.sqrt init a0
      (QuietInv_fresh W t inst a0 h0))
      (by rw [(Start_fresh_params Real.sqrt W t inst a0 h0 init).2]; exact ht) c hconst
    exact ⟨hf, hc.trans ihc⟩

/-- The mean of a window of nine values `c` followed by one value `d`. -/
theorem specMean_spike (c d : ℝ) :
    specMean [c, c, c, c, c, c, c, c, c, d] = (9 * c + d) / 10 := by
  simp [specMean]
  ring

/-- The population standard deviation of nine values `c` followed by one value `d`. -/
theorem specStdDev_spike (c d : ℝ) :
    specStdDev Real.sqrt [c, c, c, c, c, c, c, c, c, d] = 3 / 10 * |d - c| := by
  unfold specStdDev
  rw [specMean_spike]
  have e : (List.map (fun v => (v - (9 * c + d) / 10) ^ 2) [c, c, c, c, c, c, c, c, c, d]).sum
      / (([c, c, c, c, c, c, c, c, c, d] : List ℝ).length : ℝ) = (3 / 10 * (d - c)) ^ 2 := by
    simp
    ring
  rw [e, Real.sqrt_sq_eq_abs, abs_mul]
  norm_num

/-- The z-score of the spike `d` against nine values `c` and itself. -/
theorem specZScore_spike (c d : ℝ) (hsd : (1e-4 : ℝ) ≤ 0.3 * |d - c|) :
    specZScore Real.sqrt [c, c, c, c, c, c, c, c, c, d] d = 3 * ((d - c) / |d - c|) := by
  unfold specZScore
  rw [specStdDev_spike, specMean_spike]
  have hpos : 0 < |d - c| := by
    by_contra hcon
    have : |d - c| = 0 := le_antisymm (not_lt.mp hcon) (abs_nonneg _)
    rw [this] at hsd
    norm_num at hsd
  have hnot : ¬ (3 / 10 * |d - c| < 1e-4) := by
    norm_num at hsd ⊢
    linarith
  rw [if_neg hnot]
  field_simp
  ring

/-- The window after ten samples of value `c` and one of value `d`, window size 10. -/
theorem spike_window (t : ℝ) (inst : MetricsService ℝ) (a0 : AnalyticsService ℝ)
    (h0 : NewAnalyticsService 10 t inst = some a0) (c d : ℝ) (ms : List (Metric ℝ))
    (hlen : ms.length = 10) (hval : ∀ x ∈ ms, x.Value = c) (m : Metric ℝ)
    (hm : m.Value = d) :
    (Start Real.sqrt a0 (ms ++ [m])).metricsBuffer = [c, c, c, c, c, c, c, c, c, d] := by
  rw [Start_fresh_window Real.sqrt 10 t inst a0 h0]
  have hmap : ms.map Metric.Value = List.replicate 10 c := by
    apply List.eq_replicate_iff.mpr
    refine ⟨by simp [hlen], ?_⟩
    intro v hv
    obtain ⟨x, hx, rfl⟩ := List.mem_map.mp hv
    exact hval x hx
  have e : (ms ++ [m]).length - (10 : Int).toNat = 1 := by
    simp [hlen]
  rw [e, List.map_drop, List.map_append, hmap]
  simp [List.replicate, hm]

/-- Scenario A: the stored state after the eleventh sample. -/
theorem scenarioA_window (a0 : AnalyticsService ℝ)
    (h0 : NewAnalyticsService 10 2 freshInstruments = some a0) :
    (Start Real.sqrt a0 scenarioAInputs).metricsBuffer
      = [10, 10, 10, 10, 10, 10, 10, 10, 10, 100] := by
  unfold scenarioAInputs
  apply spike_window 2 freshInstruments a0 h0 10 100
  · simp
  · intro x hx
    rw [List.eq_of_mem_replicate hx]
    rfl
  · rfl

theorem scenarioA_rollingAvg (a0 : AnalyticsService ℝ)
    (h0 : NewAnalyticsService 10 2 freshInstruments = some a0) :
    (Start Real.sqrt a0 scenarioAInputs).rollingAvg = 19 := by
  have h := Start_snoc_rollingAvg Real.sqrt a0 (List.replicate 10 (sample 10)) (sample 100)
  have hw := scenarioA_window a0 h0
  unfold scenarioAInputs at hw ⊢
  rw [h, hw, specMean_spike]
  norm_num

theorem list_sq_sum_le (l : List ℝ) :
    l.sum ^ 2 ≤ (l.length : ℝ) * (l.map (fun v => v ^ 2)).sum := by
  induction l with
  | nil => simp
  | cons a l ih =>
    simp only [List.sum_cons, List.length_cons, List.map_cons, Nat.cast_add, Nat.cast_one]
    have hq : 0 ≤ (l.map (fun v => v ^ 2)).sum :=
      List.sum_nonneg (by
        intro x hx
        obtain ⟨v, _, rfl⟩ := List.mem_map.mp hx
        positivity)
    have hk : (0 : ℝ) ≤ (l.length : ℝ) := Nat.cast_nonneg _
    by_cases hk0 : (l.length : ℝ) = 0
    · have : l = [] := by
        have : l.length = 0 := by exact_mod_cast hk0
        exact List.length_eq_zero.mp this
      subst this
      simp
    · have hkpos : 0 < (l.length : ℝ) := lt_of_le_of_ne hk (Ne.symm hk0)
      nlinarith [sq_nonneg ((l.length : ℝ) * a - l.sum), mul_nonneg hk hq, sq_nonneg a]

theorem list_sum_map_sub (l : List ℝ) (μ : ℝ) :
    (l.map (fun v => v - μ)).sum = l.sum - (l.length : ℝ) * μ := by
  induction l with
  | nil => simp
  | cons a l ih =>
    simp only [List.map_cons, List.sum_cons, List.length_cons, Nat.cast_add, Nat.cast_one, ih]
    ring

/-- The squared deviation of the newest value from the mean of its own window is at
most `len - 1` times the summed squared deviations of the other values. -/
theorem deviation_sq_le (init : List ℝ) (x : ℝ) :
    (x - specMean (init ++ [x])) ^ 2
      ≤ (init.length : ℝ) * ((init.map (fun v => (v - specMean (init ++ [x])) ^ 2)).sum) := by
  have hk : (0 : ℝ) < (init.length : ℝ) + 1 := by positivity
  have hμ : specMean (init ++ [x]) = (init.sum + x) / ((init.length : ℝ) + 1) := by
    simp [specMean]
  have hdev : x - specMean (init ++ [x])
      = -((init.map (fun v => v - specMean (init ++ [x]))).sum) := by
    rw [list_sum_map_sub, hμ]
    field_simp
    ring
  have hcs := list_sq_sum_le (init.map (fun v => v - specMean (init ++ [x])))
  rw [List.length_map, List.map_map] at hcs
  rw [hdev, neg_sq]
  exact hcs

theorem specZScore_sq_le (init : List ℝ) (x : ℝ) :
    (specZScore Real.sqrt (init ++ [x]) x) ^ 2 ≤ ((init ++ [x]).length : ℝ) - 1 := by
  have hlen : (((init ++ [x]).length : ℕ) : ℝ) - 1 = (init.length : ℝ) := by
    simp
  rw [hlen]
  have hk : (0 : ℝ) ≤ (init.length : ℝ) := Nat.cast_nonneg _
  unfold specZScore
  split_ifs with hsd
  · simp
  · have hsdpos : 0 < specStdDev Real.sqrt (init ++ [x]) := by
      have : (1e-4 : ℝ) ≤ specStdDev Real.sqrt (init ++ [x]) := not_lt.mp hsd
      have h0 : (0 : ℝ) < 1e-4 := by norm_num
      linarith
    have hdev := deviation_sq_le init x
    set μ := specMean (init ++ [x]) with hμdef
    set Q := (init.map (fun v => (v - μ) ^ 2)).sum with hQ
    have hS : ((init ++ [x]).map (fun v => (v - μ) ^ 2)).sum = Q + (x - μ) ^ 2 := by
      simp [hQ]
    have hvar : specStdDev Real.sqrt (init ++ [x]) ^ 2
        = (Q + (x - μ) ^ 2) / ((init.length : ℝ) + 1) := by
      have harg : 0 < (Q + (x - μ) ^ 2) / ((init.length : ℝ) + 1) := by
        have := Real.sqrt_pos.mp (show 0 < Real.sqrt ((Q + (x - μ) ^ 2) / ((init.length : ℝ) + 1)) by
          have h := hsdpos
          unfold specStdDev at h
          rw [← hμdef, hS] at h
          simpa using h)
        exact this
      unfold specStdDev
      rw [← hμdef, hS]
      simp only [List.length_append, List.length_singleton, Nat.cast_add, Nat.cast_one]
      exact Real.sq_sqrt harg.le
    rw [div_pow, hvar]
    have hk1 : (0 : ℝ) < (init.length : ℝ) + 1 := by positivity
    have hden : 0 < (Q + (x - μ) ^ 2) / ((init.length : ℝ) + 1) := by
      rw [← hvar]; positivity
    rw [div_le_iff₀ hden]
    have hnum : 0 < Q + (x - μ) ^ 2 := by
      have := (div_pos_iff_of_pos_right hk1).mp hden
      exact this
    rw [mul_div_assoc']
    rw [le_div_iff₀ hk1]
    nlinarith

/-- With capacity at least one the newest value is the last element of the window. -/
theorem pushWindow_last (W : Int) (hW : 1 ≤ W) (buf : List ℝ) (v : ℝ) :
    ∃ init : List ℝ, pushWindow W buf v = init ++ [v] := by
  unfold pushWindow
  split_ifs with h
  · cases buf with
    | nil => simp at h; omega
    | cons b bs => exact ⟨bs, by simp⟩
  · exact ⟨buf, rfl⟩

/-- One step from a state satisfying the detector invariant keeps the stored score
within the bound given by the window length. -/
theorem processMetric_zscore_sq_le (a : AnalyticsService ℝ) (m : Metric ℝ)
    (hW : 1 ≤ a.windowSize) (hq : QuietInv a) :
    (processMetric Real.sqrt a m).currentZScore ^ 2
      ≤ ((processMetric Real.sqrt a m).metricsBuffer.length : ℝ) - 1 := by
  obtain ⟨init, hinit⟩ := pushWindow_last a.windowSize hW a.metricsBuffer m.Value
  rw [processMetric_metricsBuffer]
  by_cases hlen : 10 ≤ (pushWindow a.windowSize a.metricsBuffer m.Value).length
  · rw [(processMetric_of_full Real.sqrt a m hlen).1, hinit]
    exact specZScore_sq_le init m.Value
  · have hshort : (pushWindow a.windowSize a.metricsBuffer m.Value).length < 10 := by omega
    have hq1 := (QuietInv_step Real.sqrt a m hq).2
    rw [processMetric_metricsBuffer] at hq1
    rw [(hq1 hshort).1, hinit]
    simp

/-- A threshold of at least `sqrt (W - 1)` is never exceeded. -/
theorem Start_high_threshold (W : Int) (hW : 1 ≤ W) (t : ℝ)
    (ht : Real.sqrt ((W : ℝ) - 1) ≤ t) (inst : MetricsService ℝ) (a0 : AnalyticsService ℝ)
    (h0 : NewAnalyticsService W t inst = some a0) (ms : List (Metric ℝ)) :
    (Start Real.sqrt a0 ms).isCurrentAnomaly = false ∧
      (Start Real.sqrt a0 ms).anomaliesCount = 0 := by
  induction ms using List.reverseRecOn with
  | nil =>
    obtain ⟨-, -, -, -, -, -, hc, -, -, hf⟩ := NewAnalyticsService_some W t inst a0 h0
    exact ⟨hf, hc⟩
  | append_singleton init m ih =>
    obtain ⟨-, ihc⟩ := ih
    have hq := QuietInv_Start Real.sqrt init a0 (QuietInv_fresh W t inst a0 h0)
    obtain ⟨hw, hthr⟩ := Start_fresh_params Real.sqrt W t inst a0 h0 init
    have hz := processMetric_zscore_sq_le (Start Real.sqrt a0 init) m (by rw [hw]; exact hW) hq
    have hcap := (QuietInv_step Real.sqrt (Start Real.sqrt a0 init) m hq).1
    rw [processMetric_windowSize, hw] at hcap
    obtain ⟨hcnt, hflag⟩ := processMetric_anomaliesCount Real.sqrt (Start Real.sqrt a0 init) m hq
    rw [hthr] at hflag
    rw [Start_append_singleton]
    have hcapR : ((processMetric Real.sqrt (Start Real.sqrt a0 init) m).metricsBuffer.length : ℝ)
        ≤ (W : ℝ) := by exact_mod_cast hcap
    have habs : |(processMetric Real.sqrt (Start Real.sqrt a0 init) m).currentZScore| ≤ t :=
      le_trans (Real.abs_le_sqrt hz) (le_trans (Real.sqrt_le_sqrt (by linarith)) ht)
    have hf : (processMetric Real.sqrt (Start Real.sqrt a0 init) m).isCurrentAnomaly = false := by
      by_contra hcon
      have htrue : (processMetric Real.sqrt (Start Real.sqrt a0 init) m).isCurrentAnomaly
          = true := by simpa using hcon
      have := (hflag.mp htrue).2
      linarith
    refine ⟨hf, ?_⟩
    rw [hcnt, hf, ihc]
    simp

theorem scenarioA_zscore (a0 : AnalyticsService ℝ)
    (h0 : NewAnalyticsService 10 2 freshInstruments = some a0) :
    (Start Real.sqrt a0 scenarioAInputs).currentZScore = 3 := by
  have hw := scenarioA_window a0 h0
  unfold scenarioAInputs at hw ⊢
  obtain ⟨h1, -, -⟩ := Start_snoc_full Real.sqrt a0 (List.replicate 10 (sample 10))
    (sample 100) (by rw [hw]; simp)
  have hv : (sample (100 : ℝ)).Value = 100 := rfl
  rw [h1, hw, hv, specZScore_spike 10 100 (by norm_num [abs_of_pos])]
  norm_num [abs_of_pos]

end RealArithmetic

section ClaimsAnyArithmetic

variable {F : Type} [Zero F] [One F] [Add F] [Sub F] [Mul F] [Div F] [NatCast F]
  [OfScientific F] [LT F] [DecidableRel (fun a b : F => a < b)] [FloatAbs F]

/-- C1: for every window size `W` with which a service is freshly constructed (so
`W ≥ 0`) and every sequence of `n` samples processed from it, the history holds
exactly the processed samples, the window `metricsBuffer` is the list of `Value`s of
the last `min n W` history entries in arrival order, its length is `min n W`, and it
never exceeds `W`. The statement holds for every arithmetic, `float64` included. -/
theorem C1_window_is_recent_history (sqrt : F → F) (W : Int) (t : F)
    (inst : MetricsService F) (a0 : AnalyticsService F)
    (h0 : NewAnalyticsService W t inst = some a0) (ms : List (Metric F)) :
    0 ≤ W ∧
      (Start sqrt a0 ms).allMetrics = ms ∧
      (Start sqrt a0 ms).metricsBuffer
        = ((Start sqrt a0 ms).allMetrics.drop
            ((Start sqrt a0 ms).allMetrics.length - min ms.length W.toNat)).map Metric.Value ∧
      (Start sqrt a0 ms).metricsBuffer.length = min ms.length W.toNat ∧
      ((Start sqrt a0 ms).metricsBuffer.length : Int) ≤ W := by
  obtain ⟨hW, hw, -, hbuf, hall, -⟩ := NewAnalyticsService_some W t inst a0 h0
  have hinv := Start_window sqrt ms a0 (by rw [hw]; exact hW) (by simp [hbuf, hall])
  obtain ⟨-, -, h3, h4⟩ := hinv
  rw [hall, List.nil_append] at h3
  rw [hw] at h4
  have hmin : ms.length - min ms.length W.toNat = ms.length - W.toNat := by omega
  refine ⟨hW, h3, ?_, ?_, ?_⟩
  · rw [h4, h3, hmin]
  · rw [h4, h3]; simp only [List.length_map, List.length_drop]; omega
  · rw [h4, h3]; simp only [List.length_map, List.length_drop]; omega

/-- Witness of C1: `float64` arithmetic, window size 2, three samples with values 1, 2,
3. -/
theorem C1_window_is_recent_history_witness :
    NewAnalyticsService 2 2 freshInstruments
        = some (⟨2, 2, [], [], freshInstruments, 0, 0, 0, 0, false⟩ : AnalyticsService F64) ∧
      (0 : Int) ≤ 2 ∧
      (Start F64.sqrt (⟨2, 2, [], [], freshInstruments, 0, 0, 0, 0, false⟩ : AnalyticsService F64)
          [sample 1, sample 2, sample 3]).allMetrics = [sample 1, sample 2, sample 3] ∧
      (Start F64.sqrt (⟨2, 2, [], [], freshInstruments, 0, 0, 0, 0, false⟩ : AnalyticsService F64)
          [sample 1, sample 2, sample 3]).metricsBuffer
        = ((Start F64.sqrt
              (⟨2, 2, [], [], freshInstruments, 0, 0, 0, 0, false⟩ : AnalyticsService F64)
              [sample 1, sample 2, sample 3]).allMetrics.drop
            ((Start F64.sqrt
                (⟨2, 2, [], [], freshInstruments, 0, 0, 0, 0, false⟩ : AnalyticsService F64)
                [sample 1, sample 2, sample 3]).allMetrics.length
              - min [sample (1 : F64), sample 2, sample 3].length (2 : Int).toNat)).map
            Metric.Value ∧
      (Start F64.sqrt (⟨2, 2, [], [], freshInstruments, 0, 0, 0, 0, false⟩ : AnalyticsService F64)
          [sample 1, sample 2, sample 3]).metricsBuffer.length
        = min [sample (1 : F64), sample 2, sample 3].length (2 : Int).toNat ∧
      ((Start F64.sqrt (⟨2, 2, [], [], freshInstruments, 0, 0, 0, 0, false⟩ : AnalyticsService F64)
          [sample 1, sample 2, sample 3]).metricsBuffer.length : Int) ≤ 2 :=
  ⟨rfl, C1_window_is_recent_history F64.sqrt 2 2 freshInstruments
    ⟨2, 2, [], [], freshInstruments, 0, 0, 0, 0, false⟩ rfl [sample 1, sample 2, sample 3]⟩

end ClaimsAnyArithmetic

section Claims

variable {F : Type} [LinearOrderedField F]

/-- C2: after every sample processed from a fresh service the published statistics are
determined by the post-insertion window `w`: `rollingAvg` is `sum(w) / len(w)`, or `0`
for an empty `w`; when `len(w) ≥ 10`, `currentZScore` is `0` if the population standard
deviation `sqrt(Σ (v - mean)² / len(w))` with `mean = sum(w) / len(w)` is below `1e-4`
and `(newValue - mean) / stdDev` otherwise, and `isCurrentAnomaly` is
`|currentZScore| > anomalyZScore`; when `len(w) < 10` the score is `0` and the flag is
`false`. The statement holds in every ordered field with any square-root function, in
particular in `ℝ` with `Real.sqrt`. -/
theorem C2_stats_determined_by_window (sqrt : F → F) (W : Int) (t : F)
    (inst : MetricsService F) (a0 : AnalyticsService F)
    (h0 : NewAnalyticsService W t inst = some a0) (ms : List (Metric F)) (m : Metric F) :
    (GetStats (Start sqrt a0 (ms ++ [m]))).RollingAverage
        = (if (Start sqrt a0 (ms ++ [m])).metricsBuffer = [] then 0
           else (Start sqrt a0 (ms ++ [m])).metricsBuffer.sum
             / ((Start sqrt a0 (ms ++ [m])).metricsBuffer.length : F)) ∧
      (10 ≤ (Start sqrt a0 (ms ++ [m])).metricsBuffer.length →
        (GetStats (Start sqrt a0 (ms ++ [m]))).CurrentZScore
            = (if sqrt (((Start sqrt a0 (ms ++ [m])).metricsBuffer.map
                    (fun v => (v - (Start sqrt a0 (ms ++ [m])).metricsBuffer.sum
                      / ((Start sqrt a0 (ms ++ [m])).metricsBuffer.length : F)) ^ 2)).sum
                  / ((Start sqrt a0 (ms ++ [m])).metricsBuffer.length : F)) < 1e-4
               then 0
               else (m.Value - (Start sqrt a0 (ms ++ [m])).metricsBuffer.sum
                      / ((Start sqrt a0 (ms ++ [m])).metricsBuffer.length : F))
                 / sqrt (((Start sqrt a0 (ms ++ [m])).metricsBuffer.map
                    (fun v => (v - (Start sqrt a0 (ms ++ [m])).metricsBuffer.sum
                      / ((Start sqrt a0 (ms ++ [m])).metricsBuffer.length : F)) ^ 2)).sum
                  / ((Start sqrt a0 (ms ++ [m])).metricsBuffer.length : F))) ∧
          ((GetStats (Start sqrt a0 (ms ++ [m]))).IsAnomaly = true ↔
            |(GetStats (Start sqrt a0 (ms ++ [m]))).CurrentZScore| > t)) ∧
      ((Start sqrt a0 (ms ++ [m])).metricsBuffer.length < 10 →
        (GetStats (Start sqrt a0 (ms ++ [m]))).CurrentZScore = 0 ∧
          (GetStats (Start sqrt a0 (ms ++ [m]))).IsAnomaly = false) := by
  refine ⟨?_, fun h => ?_, fun h => ?_⟩
  · rw [GetStats_RollingAverage, Start_snoc_rollingAvg]
    rfl
  · obtain ⟨h1, h2, -⟩ := Start_snoc_full sqrt a0 ms m h
    have hne : (Start sqrt a0 (ms ++ [m])).metricsBuffer ≠ [] := by
      intro hnil
      rw [hnil] at h
      simp at h
    refine ⟨?_, ?_⟩
    · rw [GetStats_CurrentZScore, h1]
      unfold specZScore specStdDev specMean
      simp only [hne, if_false]
    · rw [GetStats_IsAnomaly, GetStats_CurrentZScore, h2,
        (NewAnalyticsService_some W t inst a0 h0).2.2.1]
      simp
  · obtain ⟨hz, hf, -⟩ :=
      (QuietInv_Start sqrt (ms ++ [m]) a0 (QuietInv_fresh W t inst a0 h0)).2 h
    exact ⟨hz, hf⟩

/-- Witness of C2: Scenario A over the reals; the window holds ten values after the
eleventh sample, so the flag is the threshold test of the stored score. -/
theorem C2_stats_determined_by_window_witness :
    NewAnalyticsService 10 2 freshInstruments
        = some (⟨10, 2, [], [], freshInstruments, 0, 0, 0, 0, false⟩ : AnalyticsService ℝ) ∧
      10 ≤ (Start Real.sqrt ⟨10, 2, [], [], freshInstruments, 0, 0, 0, 0, false⟩
        (List.replicate 10 (sample 10) ++ [sample 100])).metricsBuffer.length ∧
      ((GetStats (Start Real.sqrt ⟨10, 2, [], [], freshInstruments, 0, 0, 0, 0, false⟩
          (List.replicate 10 (sample 10) ++ [sample 100]))).IsAnomaly = true ↔
        |(GetStats (Start Real.sqrt ⟨10, 2, [], [], freshInstruments, 0, 0, 0, 0, false⟩
          (List.replicate 10 (sample 10) ++ [sample 100]))).CurrentZScore| > 2) :=
  have h0 : NewAnalyticsService 10 2 freshInstruments
      = some (⟨10, 2, [], [], freshInstruments, 0, 0, 0, 0, false⟩ : AnalyticsService ℝ) := by
    norm_num [NewAnalyticsService, maxAlloc]
  have hlen : 10 ≤ (Start Real.sqrt ⟨10, 2, [], [], freshInstruments, 0, 0, 0, 0, false⟩
      (List.replicate 10 (sample 10) ++ [sample 100])).metricsBuffer.length := by
    rw [Start_fresh_length Real.sqrt 10 2 freshInstruments _ h0]
    decide
  ⟨h0, hlen, ((C2_stats_determined_by_window Real.sqrt 10 2 freshInstruments _ h0
    (List.replicate 10 (sample 10)) (sample 100)).2.1 hlen).2⟩

/-- C3: for every window size, every threshold and every sample sequence processed from
a fresh service, whenever the window holds fewer than ten values `GetStats` reports
`CurrentZScore = 0`, `IsAnomaly = false` and `AnomaliesDetected = 0`; this is the case
in particular when fewer than ten samples were processed or the window size is below
ten. -/
theorem C3_short_window_reports_nothing (sqrt : F → F) (W : Int) (t : F)
    (inst : MetricsService F) (a0 : AnalyticsService F)
    (h0 : NewAnalyticsService W t inst = some a0) (ms : List (Metric F)) :
    ((Start sqrt a0 ms).metricsBuffer.length < 10 →
      (GetStats (Start sqrt a0 ms)).CurrentZScore = 0 ∧
      (GetStats (Start sqrt a0 ms)).IsAnomaly = false ∧
      (GetStats (Start sqrt a0 ms)).AnomaliesDetected = 0) ∧
    ((ms.length < 10 ∨ W < 10) → (Start sqrt a0 ms).metricsBuffer.length < 10) := by
  refine ⟨fun hlt => ?_, fun hor => ?_⟩
  · exact (QuietInv_Start sqrt ms a0 (QuietInv_fresh W t inst a0 h0)).2 hlt
  · rw [Start_fresh_length sqrt W t inst a0 h0]
    omega

/-- Witness of C3: window size 50, threshold 2, five samples (Scenario B). -/
theorem C3_short_window_reports_nothing_witness :
    NewAnalyticsService 50 2 freshInstruments
        = some (⟨50, 2, [], [], freshInstruments, 0, 0, 0, 0, false⟩ : AnalyticsService ℚ) ∧
      (Start Rat.sqrt ⟨50, 2, [], [], freshInstruments, 0, 0, 0, 0, false⟩
          scenarioBInputs).metricsBuffer.length < 10 ∧
      (GetStats (Start Rat.sqrt ⟨50, 2, [], [], freshInstruments, 0, 0, 0, 0, false⟩
          scenarioBInputs)).CurrentZScore = 0 ∧
      (GetStats (Start Rat.sqrt ⟨50, 2, [], [], freshInstruments, 0, 0, 0, 0, false⟩
          scenarioBInputs)).IsAnomaly = false ∧
      (GetStats (Start Rat.sqrt ⟨50, 2, [], [], freshInstruments, 0, 0, 0, 0, false⟩
          scenarioBInputs)).AnomaliesDetected = 0 :=
  have h := C3_short_window_reports_nothing Rat.sqrt 50 2 freshInstruments
    ⟨50, 2, [], [], freshInstruments, 0, 0, 0, 0, false⟩ rfl scenarioBInputs
  ⟨rfl, h.2 (Or.inl (by decide)), h.1 (h.2 (Or.inl (by decide)))⟩

/-- Exact arithmetic, threshold `-1`, window size 10: ten samples of value 5 leave a
constant window, yet the tenth sample is flagged and counted. -/
theorem negative_threshold_flags_constant_window :
    ∃ a0 : AnalyticsService ℝ, NewAnalyticsService 10 (-1) freshInstruments = some a0 ∧
      (∀ v ∈ (Start Real.sqrt a0 (List.replicate 9 (sample 5) ++ [sample 5])).metricsBuffer,
        v = 5) ∧
      (Start Real.sqrt a0 (List.replicate 9 (sample 5) ++ [sample 5])).isCurrentAnomaly = true ∧
      (Start Real.sqrt a0 (List.replicate 9 (sample 5))).anomaliesCount = 0 ∧
      (Start Real.sqrt a0 (List.replicate 9 (sample 5) ++ [sample 5])).anomaliesCount = 1 := by
  obtain ⟨a0, h0⟩ := NewAnalyticsService_succeeds 10 (by decide) (by decide) (-1 : ℝ) freshInstruments
  have hwin := Start_fresh_window Real.sqrt 10 (-1) freshInstruments a0 h0
    (List.replicate 9 (sample 5) ++ [sample 5])
  have hwin9 := Start_fresh_window Real.sqrt 10 (-1) freshInstruments a0 h0
    (List.replicate 9 (sample 5))
  have hconst : ∀ v ∈
      (Start Real.sqrt a0 (List.replicate 9 (sample 5) ++ [sample 5])).metricsBuffer, v = 5 := by
    rw [hwin]
    simp [List.replicate, sample]
  have hq9 := (QuietInv_Start Real.sqrt (List.replicate 9 (sample 5)) a0
    (QuietInv_fresh 10 (-1) freshInstruments a0 h0)).2 (by rw [hwin9]; simp)
  obtain ⟨h1, h2, h3⟩ := Start_snoc_full Real.sqrt a0 (List.replicate 9 (sample 5)) (sample 5)
    (by rw [hwin]; simp)
  rw [specZScore_const _ 5 _ hconst] at h1
  have hf : (Start Real.sqrt a0
      (List.replicate 9 (sample 5) ++ [sample 5])).isCurrentAnomaly = true := by
    rw [h2, h1, (NewAnalyticsService_some _ _ _ _ h0).2.2.1]
    simp
  refine ⟨a0, h0, hconst, hf, hq9.2.2, ?_⟩
  rw [h3, hf, hq9.2.2]
  simp [wrap64]

/-- C4 (as stated, refuted), two inputs with window size 10. Exact arithmetic, threshold
`-1`: ten samples of value 5 leave a window whose values are all equal, yet the tenth
sample is flagged and `anomaliesCount` goes from 0 to 1. `float64` arithmetic,
threshold `1/2 ≥ 0`: ten samples of value `2^53 - 1` leave a window whose values are all
equal; the rounded sum gives the mean `2^53 - 2`, the standard deviation is 1, the
stored score is 1, and the tenth sample is flagged and counted. -/
theorem C4_constant_window_flagged :
    (∃ a0 : AnalyticsService ℝ, NewAnalyticsService 10 (-1) freshInstruments = some a0 ∧
      (∀ v ∈ (Start Real.sqrt a0 (List.replicate 9 (sample 5) ++ [sample 5])).metricsBuffer,
        v = 5) ∧
      (Start Real.sqrt a0 (List.replicate 9 (sample 5) ++ [sample 5])).isCurrentAnomaly = true ∧
      (Start Real.sqrt a0 (List.replicate 9 (sample 5))).anomaliesCount = 0 ∧
      (Start Real.sqrt a0 (List.replicate 9 (sample 5) ++ [sample 5])).anomaliesCount = 1) ∧
    (NewAnalyticsService 10 (1 / 2) freshInstruments
        = some (⟨10, 1 / 2, [], [], freshInstruments, 0, 0, 0, 0, false⟩ : AnalyticsService F64) ∧
      (0 : F64) < 1 / 2 ∧
      (∀ v ∈ (Start F64.sqrt (⟨10, 1 / 2, [], [], freshInstruments, 0, 0, 0, 0, false⟩ :
          AnalyticsService F64)
          (List.replicate 9 (sample 9007199254740991) ++ [sample 9007199254740991])).metricsBuffer,
        v = 9007199254740991) ∧
      (Start F64.sqrt (⟨10, 1 / 2, [], [], freshInstruments, 0, 0, 0, 0, false⟩ :
          AnalyticsService F64)
          (List.replicate 9 (sample 9007199254740991) ++ [sample 9007199254740991])).rollingAvg
        = 9007199254740990 ∧
      (Start F64.sqrt (⟨10, 1 / 2, [], [], freshInstruments, 0, 0, 0, 0, false⟩ :
          AnalyticsService F64)
          (List.replicate 9 (sample 9007199254740991) ++ [sample 9007199254740991])).currentZScore
        = 1 ∧
      (Start F64.sqrt (⟨10, 1 / 2, [], [], freshInstruments, 0, 0, 0, 0, false⟩ :
          AnalyticsService F64)
          (List.replicate 9 (sample 9007199254740991)
            ++ [sample 9007199254740991])).isCurrentAnomaly = true ∧
      (Start F64.sqrt (⟨10, 1 / 2, [], [], freshInstruments, 0, 0, 0, 0, false⟩ :
          AnalyticsService F64)
          (List.replicate 9 (sample 9007199254740991))).anomaliesCount = 0 ∧
      (Start F64.sqrt (⟨10, 1 / 2, [], [], freshInstruments, 0, 0, 0, 0, false⟩ :
          AnalyticsService F64)
          (List.replicate 9 (sample 9007199254740991)
            ++ [sample 9007199254740991])).anomaliesCount = 1) :=
  ⟨negative_threshold_flags_constant_window,
    rfl, by decide!, by decide!, by decide!, by decide!, by decide!, by decide!,
    by decide!⟩

/-- C4 (amended): over the reals, for every threshold `anomalyZScore ≥ 0` and every
sample processed from a fresh service after which all values in the window are equal
(standard deviation 0), `processMetric` leaves `isCurrentAnomaly = false` and does not
change `anomaliesCount`. -/
theorem C4_constant_window_not_flagged (W : Int) (t : ℝ) (ht : 0 ≤ t)
    (inst : MetricsService ℝ) (a0 : AnalyticsService ℝ)
    (h0 : NewAnalyticsService W t inst = some a0) (ms : List (Metric ℝ)) (m : Metric ℝ)
    (c : ℝ) (hconst : ∀ v ∈ (Start Real.sqrt a0 (ms ++ [m])).metricsBuffer, v = c) :
    (Start Real.sqrt a0 (ms ++ [m])).isCurrentAnomaly = false ∧
      (Start Real.sqrt a0 (ms ++ [m])).anomaliesCount
        = (Start Real.sqrt a0 ms).anomaliesCount := by
  rw [Start_append_singleton] at hconst ⊢
  apply processMetric_const_window _ _ (QuietInv_Start Real.sqrt ms a0
    (QuietInv_fresh W t inst a0 h0)) _ c hconst
  rw [(Start_fresh_params Real.sqrt W t inst a0 h0 ms).2]
  exact ht

/-- Witness of the amended C4: window size 10, threshold 2, ten samples of value 5. -/
theorem C4_constant_window_not_flagged_witness :
    (Start Real.sqrt ⟨10, 2, [], [], freshInstruments, 0, 0, 0, 0, false⟩
        (List.replicate 9 (sample 5) ++ [sample 5])).isCurrentAnomaly = false ∧
      (Start Real.sqrt ⟨10, 2, [], [], freshInstruments, 0, 0, 0, 0, false⟩
        (List.replicate 9 (sample 5) ++ [sample 5])).anomaliesCount
        = (Start Real.sqrt ⟨10, 2, [], [], freshInstruments, 0, 0, 0, 0, false⟩
            (List.replicate 9 (sample 5))).anomaliesCount :=
  C4_constant_window_not_flagged 10 2 (by norm_num) freshInstruments
    ⟨10, 2, [], [], freshInstruments, 0, 0, 0, 0, false⟩ (by norm_num [NewAnalyticsService, maxAlloc])
    (List.replicate 9 (sample 5)) (sample 5) 5
    (by
      rw [Start_fresh_window Real.sqrt 10 2 freshInstruments _ (by norm_num [NewAnalyticsService, maxAlloc])]
      simp [List.replicate, sample])

/-- C5: on a fresh service with window size 10 and threshold 2, ten samples of equal
value `c` followed by one sample of value `d` with `0.3 * |d - c| ≥ 1e-4` give, over the
reals, a non-zero standard deviation, `currentZScore = 3` if `d > c` and `-3` if `d < c`,
hence `|currentZScore| > 2`, `IsAnomaly = true` and `AnomaliesDetected = 1` after the
eleventh sample, while none of the first ten samples is flagged. -/
theorem C5_spike_after_constant_run (c d : ℝ) (hsd : (1e-4 : ℝ) ≤ 0.3 * |d - c|)
    (inst : MetricsService ℝ) (ms : List (Metric ℝ)) (hlen : ms.length = 10)
    (hval : ∀ x ∈ ms, x.Value = c) (m : Metric ℝ) (hm : m.Value = d) :
    ∃ a0 : AnalyticsService ℝ, NewAnalyticsService 10 2 inst = some a0 ∧
      specStdDev Real.sqrt (Start Real.sqrt a0 (ms ++ [m])).metricsBuffer ≠ 0 ∧
      (c < d → (GetStats (Start Real.sqrt a0 (ms ++ [m]))).CurrentZScore = 3) ∧
      (d < c → (GetStats (Start Real.sqrt a0 (ms ++ [m]))).CurrentZScore = -3) ∧
      |(GetStats (Start Real.sqrt a0 (ms ++ [m]))).CurrentZScore| > 2 ∧
      (GetStats (Start Real.sqrt a0 (ms ++ [m]))).IsAnomaly = true ∧
      (GetStats (Start Real.sqrt a0 (ms ++ [m]))).AnomaliesDetected = 1 ∧
      (∀ k : Nat, k ≤ 10 →
        (GetStats (Start Real.sqrt a0 (ms.take k))).IsAnomaly = false ∧
        (GetStats (Start Real.sqrt a0 (ms.take k))).AnomaliesDetected = 0) := by
  obtain ⟨a0, h0⟩ := NewAnalyticsService_succeeds 10 (by decide) (by decide) (2 : ℝ) inst
  have hw := spike_window 2 inst a0 h0 c d ms hlen hval m hm
  have hpos : 0 < |d - c| := by
    by_contra hcon
    have : |d - c| = 0 := le_antisymm (not_lt.mp hcon) (abs_nonneg _)
    rw [this] at hsd
    norm_num at hsd
  have hne : d - c ≠ 0 := abs_pos.mp hpos
  obtain ⟨h1, h2, h3⟩ := Start_snoc_full Real.sqrt a0 ms m (by rw [hw]; simp)
  rw [hw, hm, specZScore_spike c d hsd] at h1
  have habs : |(Start Real.sqrt a0 (ms ++ [m])).currentZScore| = 3 := by
    rw [h1, abs_mul, abs_div, abs_abs, div_self (ne_of_gt hpos)]
    norm_num
  have hflag : (Start Real.sqrt a0 (ms ++ [m])).isCurrentAnomaly = true := by
    rw [h2, habs, (NewAnalyticsService_some _ _ _ _ h0).2.2.1]
    norm_num
  have hten := Start_const_inputs 10 2 (by norm_num) inst a0 h0 c
  refine ⟨a0, h0, ?_, ?_, ?_, ?_, hflag, ?_, ?_⟩
  · rw [hw, specStdDev_spike]
    positivity
  · intro hlt
    show (Start Real.sqrt a0 (ms ++ [m])).currentZScore = 3
    rw [h1, abs_of_pos (sub_pos.mpr hlt), div_self hne]
    norm_num
  · intro hlt
    show (Start Real.sqrt a0 (ms ++ [m])).currentZScore = -3
    rw [h1, abs_of_neg (sub_neg.mpr hlt), div_neg, div_self hne]
    norm_num
  · show |(Start Real.sqrt a0 (ms ++ [m])).currentZScore| > 2
    rw [habs]
    norm_num
  · show (Start Real.sqrt a0 (ms ++ [m])).anomaliesCount = 1
    rw [h3, hflag, (hten ms hval).2]
    simp [wrap64]
  · intro k _
    exact hten (ms.take k) (fun x hx => hval x (List.mem_of_mem_take hx))

/-- Witness of C5: Scenario A, `c = 10` and `d = 100`. -/
theorem C5_spike_after_constant_run_witness :
    ∃ a0 : AnalyticsService ℝ, NewAnalyticsService 10 2 freshInstruments = some a0 ∧
      specStdDev Real.sqrt (Start Real.sqrt a0
        (List.replicate 10 (sample 10) ++ [sample 100])).metricsBuffer ≠ 0 ∧
      ((10 : ℝ) < 100 → (GetStats (Start Real.sqrt a0
        (List.replicate 10 (sample 10) ++ [sample 100]))).CurrentZScore = 3) ∧
      ((100 : ℝ) < 10 → (GetStats (Start Real.sqrt a0
        (List.replicate 10 (sample 10) ++ [sample 100]))).CurrentZScore = -3) ∧
      |(GetStats (Start Real.sqrt a0
        (List.replicate 10 (sample 10) ++ [sample 100]))).CurrentZScore| > 2 ∧
      (GetStats (Start Real.sqrt a0
        (List.replicate 10 (sample 10) ++ [sample 100]))).IsAnomaly = true ∧
      (GetStats (Start Real.sqrt a0
        (List.replicate 10 (sample 10) ++ [sample 100]))).AnomaliesDetected = 1 ∧
      (∀ k : Nat, k ≤ 10 →
        (GetStats (Start Real.sqrt a0
          ((List.replicate 10 (sample 10)).take k))).IsAnomaly = false ∧
        (GetStats (Start Real.sqrt a0
          ((List.replicate 10 (sample 10)).take k))).AnomaliesDetected = 0) :=
  C5_spike_after_constant_run 10 100 (by norm_num [abs_of_pos]) freshInstruments
    (List.replicate 10 (sample 10)) (by simp)
    (fun x hx => by rw [List.eq_of_mem_replicate hx]; rfl) (sample 100) rfl

/-- C6 (as stated, refuted): in Scenario A the rolling average reported after the
eleventh sample is not within 0.1 of 18.2. -/
theorem C6_rolling_average_not_near_18_2 :
    ∃ a0 : AnalyticsService ℝ, NewAnalyticsService 10 2 freshInstruments = some a0 ∧
      ¬ |(GetStats (Start Real.sqrt a0 scenarioAInputs)).RollingAverage - 18.2| ≤ 0.1 := by
  obtain ⟨a0, h0⟩ := NewAnalyticsService_succeeds 10 (by decide) (by decide) (2 : ℝ) freshInstruments
  refine ⟨a0, h0, ?_⟩
  rw [GetStats_RollingAverage, scenarioA_rollingAvg a0 h0]
  norm_num [abs_le]

/-- C6 (amended): in Scenario A the rolling average reported by `GetStats` after the
eleventh sample is exactly 19, the mean of the ten values left in the window (nine
times 10 and once 100). -/
theorem C6_rolling_average_is_19 :
    ∃ a0 : AnalyticsService ℝ, NewAnalyticsService 10 2 freshInstruments = some a0 ∧
      (Start Real.sqrt a0 scenarioAInputs).metricsBuffer
        = [10, 10, 10, 10, 10, 10, 10, 10, 10, 100] ∧
      (GetStats (Start Real.sqrt a0 scenarioAInputs)).RollingAverage = 19 := by
  obtain ⟨a0, h0⟩ := NewAnalyticsService_succeeds 10 (by decide) (by decide) (2 : ℝ) freshInstruments
  refine ⟨a0, h0, scenarioA_window a0 h0, ?_⟩
  rw [GetStats_RollingAverage, scenarioA_rollingAvg a0 h0]

/-- C10 (as stated, refuted): in `float64` arithmetic with window size 10 and threshold
`3 = sqrt (10 - 1)`, ten samples of value 0 followed by one sample of value 7 leave a
window of ten values and store the score `3.0000000000000004` (`3 + 2^-51`), which
exceeds the threshold: the eleventh sample is flagged and `anomaliesCount` becomes 1. -/
theorem C10_float64_flagged_at_bound :
    NewAnalyticsService 10 3 freshInstruments
        = some (⟨10, 3, [], [], freshInstruments, 0, 0, 0, 0, false⟩ : AnalyticsService F64) ∧
      F64.sqrt ((10 : F64) - 1) = 3 ∧
      (Start F64.sqrt (⟨10, 3, [], [], freshInstruments, 0, 0, 0, 0, false⟩ :
          AnalyticsService F64)
          (List.replicate 10 (sample 0) ++ [sample 7])).metricsBuffer.length = 10 ∧
      (Start F64.sqrt (⟨10, 3, [], [], freshInstruments, 0, 0, 0, 0, false⟩ :
          AnalyticsService F64)
          (List.replicate 10 (sample 0) ++ [sample 7])).currentZScore
        = F64.fin false (3 * 2 ^ 51 + 1) (-51) ∧
      (3 : F64) < (Start F64.sqrt (⟨10, 3, [], [], freshInstruments, 0, 0, 0, 0, false⟩ :
          AnalyticsService F64)
          (List.replicate 10 (sample 0) ++ [sample 7])).currentZScore ∧
      (Start F64.sqrt (⟨10, 3, [], [], freshInstruments, 0, 0, 0, 0, false⟩ :
          AnalyticsService F64)
          (List.replicate 10 (sample 0) ++ [sample 7])).isCurrentAnomaly = true ∧
      (Start F64.sqrt (⟨10, 3, [], [], freshInstruments, 0, 0, 0, 0, false⟩ :
          AnalyticsService F64)
          (List.replicate 10 (sample 0))).anomaliesCount = 0 ∧
      (Start F64.sqrt (⟨10, 3, [], [], freshInstruments, 0, 0, 0, 0, false⟩ :
          AnalyticsService F64)
          (List.replicate 10 (sample 0) ++ [sample 7])).anomaliesCount = 1 :=
  ⟨rfl, by decide!, by decide!, by decide!, by decide!, by decide!, by decide!,
    by decide!⟩

/-- C10 (amended): over the reals, for every window size `W ≥ 1` and every sample
sequence processed from a fresh service, after each processed sample, with `n` the
length of the post-insertion window, the stored score satisfies
`currentZScore² ≤ n - 1 ≤ W - 1`; consequently, over the reals, a threshold
`anomalyZScore ≥ sqrt (W - 1)` never flags a sample and `anomaliesCount` stays 0. The
bound is attained in Scenario A, where `n = 10` and the score is 3. -/
theorem C10_zscore_sq_le_window_length (W : Int) (hW : 1 ≤ W) (t : ℝ)
    (inst : MetricsService ℝ) (a0 : AnalyticsService ℝ)
    (h0 : NewAnalyticsService W t inst = some a0) (ms : List (Metric ℝ)) (m : Metric ℝ) :
    (Start Real.sqrt a0 (ms ++ [m])).currentZScore ^ 2
        ≤ ((Start Real.sqrt a0 (ms ++ [m])).metricsBuffer.length : ℝ) - 1 ∧
      ((Start Real.sqrt a0 (ms ++ [m])).metricsBuffer.length : ℝ) - 1 ≤ (W : ℝ) - 1 ∧
      (Real.sqrt ((W : ℝ) - 1) ≤ t →
        (Start Real.sqrt a0 (ms ++ [m])).isCurrentAnomaly = false ∧
        (Start Real.sqrt a0 (ms ++ [m])).anomaliesCount = 0) ∧
      (∃ b0 : AnalyticsService ℝ, NewAnalyticsService 10 2 freshInstruments = some b0 ∧
        (Start Real.sqrt b0 scenarioAInputs).metricsBuffer.length = 10 ∧
        (Start Real.sqrt b0 scenarioAInputs).currentZScore = 3 ∧
        (Start Real.sqrt b0 scenarioAInputs).currentZScore ^ 2
          = ((Start Real.sqrt b0 scenarioAInputs).metricsBuffer.length : ℝ) - 1) := by
  have hq := QuietInv_Start Real.sqrt ms a0 (QuietInv_fresh W t inst a0 h0)
  obtain ⟨hw, -⟩ := Start_fresh_params Real.sqrt W t inst a0 h0 ms
  have hcap := (QuietInv_step Real.sqrt (Start Real.sqrt a0 ms) m hq).1
  rw [processMetric_windowSize, hw] at hcap
  refine ⟨?_, ?_, fun ht => ?_, ?_⟩
  · rw [Start_append_singleton]
    exact processMetric_zscore_sq_le _ m (by rw [hw]; exact hW) hq
  · rw [Start_append_singleton]
    have : ((processMetric Real.sqrt (Start Real.sqrt a0 ms) m).metricsBuffer.length : ℝ)
        ≤ (W : ℝ) := by exact_mod_cast hcap
    linarith
  · exact Start_high_threshold W hW t ht inst a0 h0 (ms ++ [m])
  · obtain ⟨b0, hb⟩ := NewAnalyticsService_succeeds 10 (by decide) (by decide) (2 : ℝ) freshInstruments
    refine ⟨b0, hb, ?_, scenarioA_zscore b0 hb, ?_⟩
    · rw [scenarioA_window b0 hb]; rfl
    · rw [scenarioA_zscore b0 hb, scenarioA_window b0 hb]
      norm_num

/-- Witness of C10: window size 10, threshold 3 = `sqrt (10 - 1)`, Scenario A: nothing is
flagged. -/
theorem C10_zscore_sq_le_window_length_witness :
    NewAnalyticsService 10 3 freshInstruments
        = some (⟨10, 3, [], [], freshInstruments, 0, 0, 0, 0, false⟩ : AnalyticsService ℝ) ∧
      (Start Real.sqrt ⟨10, 3, [], [], freshInstruments, 0, 0, 0, 0, false⟩
          (List.replicate 10 (sample 10) ++ [sample 100])).currentZScore ^ 2
        ≤ ((Start Real.sqrt ⟨10, 3, [], [], freshInstruments, 0, 0, 0, 0, false⟩
          (List.replicate 10 (sample 10) ++ [sample 100])).metricsBuffer.length : ℝ) - 1 ∧
      (Start Real.sqrt ⟨10, 3, [], [], freshInstruments, 0, 0, 0, 0, false⟩
          (List.replicate 10 (sample 10) ++ [sample 100])).isCurrentAnomaly = false ∧
      (Start Real.sqrt ⟨10, 3, [], [], freshInstruments, 0, 0, 0, 0, false⟩
          (List.replicate 10 (sample 10) ++ [sample 100])).anomaliesCount = 0 :=
  have h := C10_zscore_sq_le_window_length 10 (by decide) 3 freshInstruments
    ⟨10, 3, [], [], freshInstruments, 0, 0, 0, 0, false⟩ (by norm_num [NewAnalyticsService, maxAlloc])
    (List.replicate 10 (sample 10)) (sample 100)
  have ht : Real.sqrt (((10 : Int) : ℝ) - 1) ≤ 3 := by
    rw [Real.sqrt_le_left (by norm_num)]
    norm_num
  ⟨by norm_num [NewAnalyticsService, maxAlloc], h.1, (h.2.2.1 ht).1, (h.2.2.1 ht).2⟩

/-- C7: for every sample sequence processed from a fresh service below int64 overflow,
each `processMetric` call increases `totalMetrics` by exactly one (so it equals the
length of the history) and increases `anomaliesCount` by one exactly when that sample
is flagged and by zero otherwise; neither counter decreases, and
`0 ≤ anomaliesCount ≤ totalMetrics` holds before and after the call. -/
theorem C7_counters_monotone (sqrt : F → F) (W : Int) (t : F) (inst : MetricsService F)
    (a0 : AnalyticsService F) (h0 : NewAnalyticsService W t inst = some a0)
    (ms : List (Metric F)) (m : Metric F) (hn : (ms.length : Int) + 1 < 2 ^ 63)
    (s s1 : AnalyticsService F) (hs : s = Start sqrt a0 ms)
    (hs1 : s1 = processMetric sqrt s m) :
    s.totalMetrics = (s.allMetrics.length : Int) ∧
    s1.totalMetrics = s.totalMetrics + 1 ∧
    s1.totalMetrics = (s1.allMetrics.length : Int) ∧
    s1.anomaliesCount = s.anomaliesCount + (if s1.isCurrentAnomaly then 1 else 0) ∧
    (s1.isCurrentAnomaly = true ↔
      10 ≤ s1.metricsBuffer.length ∧ |s1.currentZScore| > t) ∧
    s.totalMetrics ≤ s1.totalMetrics ∧ s.anomaliesCount ≤ s1.anomaliesCount ∧
    0 ≤ s.anomaliesCount ∧ s.anomaliesCount ≤ s.totalMetrics ∧
    0 ≤ s1.anomaliesCount ∧ s1.anomaliesCount ≤ s1.totalMetrics := by
  subst hs hs1
  obtain ⟨-, -, ht, -, hall, -⟩ := NewAnalyticsService_some W t inst a0 h0
  have hq0 := QuietInv_fresh W t inst a0 h0
  have hc0 := CountInv_fresh W t inst a0 h0
  have hq := QuietInv_Start sqrt ms a0 hq0
  have hc := CountInv_Start sqrt ms a0 hq0 hc0 (by rw [hall]; simp; omega)
  have hlen : ((Start sqrt a0 ms).allMetrics.length : Int) + 1 < 2 ^ 63 := by
    rw [Start_allMetrics, hall]; simpa using hn
  obtain ⟨⟨c1, c2, c3⟩, htot, hcnt⟩ := CountInv_step sqrt (Start sqrt a0 ms) m hq hc hlen
  have hflag := (processMetric_anomaliesCount sqrt (Start sqrt a0 ms) m hq).2
  rw [(Start_params sqrt ms a0).2, ht] at hflag
  obtain ⟨d1, d2, d3⟩ := hc
  refine ⟨d1, htot, c1, hcnt, hflag, by omega, ?_, d2, d3, c2, c3⟩
  rw [hcnt]; split_ifs <;> omega

/-- Witness of C7: Scenario A, the eleventh sample after ten processed ones. -/
theorem C7_counters_monotone_witness :
    NewAnalyticsService 10 2 freshInstruments
        = some (⟨10, 2, [], [], freshInstruments, 0, 0, 0, 0, false⟩ : AnalyticsService ℚ) ∧
      (((List.replicate 10 (sample (10 : ℚ))).length : Int) + 1 < 2 ^ 63) ∧
      (processMetric Rat.sqrt
          (Start Rat.sqrt ⟨10, 2, [], [], freshInstruments, 0, 0, 0, 0, false⟩
            (List.replicate 10 (sample 10))) (sample 100)).totalMetrics
        = (Start Rat.sqrt (⟨10, 2, [], [], freshInstruments, 0, 0, 0, 0, false⟩ :
            AnalyticsService ℚ) (List.replicate 10 (sample 10))).totalMetrics + 1 ∧
      (processMetric Rat.sqrt
          (Start Rat.sqrt ⟨10, 2, [], [], freshInstruments, 0, 0, 0, 0, false⟩
            (List.replicate 10 (sample 10))) (sample 100)).anomaliesCount
        ≤ (processMetric Rat.sqrt
          (Start Rat.sqrt (⟨10, 2, [], [], freshInstruments, 0, 0, 0, 0, false⟩ :
            AnalyticsService ℚ) (List.replicate 10 (sample 10))) (sample 100)).totalMetrics :=
  have h := C7_counters_monotone Rat.sqrt 10 2 freshInstruments
    ⟨10, 2, [], [], freshInstruments, 0, 0, 0, 0, false⟩ rfl
    (List.replicate 10 (sample 10)) (sample 100) (by decide) _ _ rfl rfl
  ⟨rfl, by decide, h.2.1, h.2.2.2.2.2.2.2.2.2.2⟩

/-- C8: for every history of length `L` and every `n ≥ 0` (both values of Go's `int`),
`GetRecentMetrics n` returns exactly the last `min n L` history entries in their
original order and leaves the service state unchanged; when `n ≥ L` it returns the
whole history, and when `L = 0` it returns the empty list. -/
theorem C8_recent_is_last_min (a : AnalyticsService F) (n : Int) (hn0 : 0 ≤ n)
    (hn : isInt64 n) (hL : isInt64 (a.allMetrics.length : Int)) :
    GetRecentMetrics a n
        = some (a.allMetrics.drop (a.allMetrics.length - min n.toNat a.allMetrics.length), a) ∧
      ((a.allMetrics.length : Int) ≤ n → GetRecentMetrics a n = some (a.allMetrics, a)) ∧
      (a.allMetrics.length = 0 → GetRecentMetrics a n = some ([], a)) := by
  have key : GetRecentMetrics a n
      = some (a.allMetrics.drop (a.allMetrics.length - min n.toNat a.allMetrics.length), a) := by
    unfold GetRecentMetrics
    by_cases h0 : a.allMetrics.length = 0
    · have : a.allMetrics = [] := List.length_eq_zero.mp h0
      simp [this]
    · unfold isInt64 at hn hL
      have hw : wrap64 ((a.allMetrics.length : Int) - n) = (a.allMetrics.length : Int) - n := by
        apply wrap64_of_isInt64
        unfold isInt64
        omega
      simp only [h0, if_false, hw]
      split_ifs with h1 h2 h3
      · omega
      · have e : a.allMetrics.length - min n.toNat a.allMetrics.length = 0 := by omega
        simp [e]
      · omega
      · have e : a.allMetrics.length - min n.toNat a.allMetrics.length
            = ((a.allMetrics.length : Int) - n).toNat := by omega
        rw [e]
  refine ⟨key, fun hge => ?_, fun h0 => ?_⟩
  · rw [key]
    have e : a.allMetrics.length - min n.toNat a.allMetrics.length = 0 := by omega
    simp [e]
  · rw [key]
    have : a.allMetrics = [] := List.length_eq_zero.mp h0
    simp [this]

/-- Witness of C8: a history of two entries, `n = 5` (Scenario D) . -/
theorem C8_recent_is_last_min_witness :
    GetRecentMetrics
        (⟨10, 2, [1, 2], [sample 1, sample 2], freshInstruments, 2, 0, 3 / 2, 0, false⟩ :
          AnalyticsService ℚ) 5
      = some ([sample 1, sample 2],
          ⟨10, 2, [1, 2], [sample 1, sample 2], freshInstruments, 2, 0, 3 / 2, 0, false⟩) :=
  (C8_recent_is_last_min
    (⟨10, 2, [1, 2], [sample 1, sample 2], freshInstruments, 2, 0, 3 / 2, 0, false⟩ :
      AnalyticsService ℚ) 5 (by decide) (by decide) (by decide)).2.1 (by decide)

/-- C9 (failing input): after one processed sample, `GetRecentMetrics (-1)` computes
the start index `1 - (-1) = 2`, which exceeds the history length `1`, and the slice
expression panics instead of returning a list. -/
theorem C9_negative_n_panics :
    ∃ a0 : AnalyticsService ℚ, NewAnalyticsService 50 2 freshInstruments = some a0 ∧
      (Start Rat.sqrt a0 [sample 7]).allMetrics.length = 1 ∧
      wrap64 (((Start Rat.sqrt a0 [sample 7]).allMetrics.length : Int) - (-1)) = 2 ∧
      GetRecentMetrics (Start Rat.sqrt a0 [sample 7]) (-1) = none := by
  refine ⟨_, rfl, ?_, ?_, ?_⟩
  · simp [Start, processMetric_allMetrics]
  · simp [Start, processMetric_allMetrics, wrap64]
  · simp [GetRecentMetrics, Start, processMetric_allMetrics, wrap64]

end Claims

end Analytics
